import Mathlib

/-!
# ghrego: repository reconciliation and the analysis ingestion pipeline

A shallow embedding of the Go sources

* `internal/core/domain` (models, helpers, `RepositoryAnalysisResponse.ToDomain`),
* `internal/adapters/storage/postgres` (the stores, statement by statement),
* `internal/config` (`Config.Validate`) and `internal/adapters/ai` (the sanitising of the
  model's answer),
* `internal/core/services` (`SyncUserRepositories`, `AnalyzeDependencies`,
  `AnalyzeRepository`, `GenerateSuggestions`),

followed by the theorems about them.

Conventions of the embedding.

* A Go `error` is a `GoError`; a nil error is `none`.  A Go pointer result is an
  `Option`; dereferencing `none` is a run-time panic (`GoResult.panic`).
* A table is the list of its rows in table order together with the sequence that
  feeds its `id` column.  A statement that can fail takes an `Option GoError`: when
  it is `some e` the driver reports `e` and the statement has no effect.
* `time.Now()` and SQL `NOW()` are read from the environment.
-/

namespace Ghrego

/-! ## Go values -/

/-- Go `string`. -/
abbrev GoString := String

/-- Go `time.Time`, as an abstract instant; `0` is the zero time. -/
abbrev Instant := Nat

/-- Go error values: `errors.New(msg)` (also `fmt.Errorf` without a verb) and
`fmt.Errorf(pre + "%w", cause)`. -/
inductive GoError where
  | new (msg : GoString)
  | wrapf (pre : GoString) (cause : GoError)
  deriving DecidableEq, Repr

/-- The method `Error()`: the message of an error. -/
def GoError.Error : GoError → GoString
  | .new msg => msg
  | .wrapf pre cause => pre ++ cause.Error

/-- The function `errors.Unwrap`. -/
def GoError.Unwrap : GoError → Option GoError
  | .new _ => none
  | .wrapf _ cause => some cause

/-- Go `strings.Contains(s, sub)`, as a proposition. -/
def Contains (s sub : GoString) : Prop :=
  ∃ pre post : GoString, s = pre ++ sub ++ post

/-- A Go call either returns or panics. -/
inductive GoResult (α : Type) where
  | returned (a : α)
  | panic (msg : GoString)
  deriving Repr

/-- Type `sql.NullString`. -/
structure NullString where
  String : GoString := ""
  Valid : Bool := false
  deriving DecidableEq, Repr

/-- Type `sql.NullInt32`. -/
structure NullInt32 where
  Int32 : Int := 0
  Valid : Bool := false
  deriving DecidableEq, Repr

/-- Type `sql.NullTime`. -/
structure NullTime where
  Time : Instant := 0
  Valid : Bool := false
  deriving DecidableEq, Repr

/-- Go conversion `int32(i)`: two's-complement truncation to 32 bits. -/
def int32 (i : Int) : Int :=
  (i + 2 ^ 31) % 2 ^ 32 - 2 ^ 31

/-! ## `domain/helpers.go` -/

/-- Source: `domain.SQLNullString`. -/
def SQLNullString (s : GoString) : NullString :=
  if s = "" then { Valid := false } else { String := s, Valid := true }

/-- Source: `domain.SQLNullInt32`. -/
def SQLNullInt32 (i : Int) : NullInt32 :=
  { Int32 := int32 i, Valid := true }

/-- Source: `domain.SQLNullTime`. -/
def SQLNullTime (t : Instant) : NullTime :=
  if t = 0 then { Valid := false } else { Time := t, Valid := true }

/-! ## `domain/models.go` -/

abbrev UserRole := GoString
abbrev AnalysisType := GoString
abbrev AnalysisStatus := GoString
abbrev SuggestionType := GoString
abbrev SuggestionPriority := GoString
abbrev SuggestionStatus := GoString
abbrev TechnologyType := GoString

def UserRoleUser : UserRole := "user"
def UserRoleAdmin : UserRole := "admin"

def AnalysisTypeArchitecture : AnalysisType := "architecture"
def AnalysisTypeFeatures : AnalysisType := "features"
def AnalysisTypeDependencies : AnalysisType := "dependencies"
def AnalysisTypeQuality : AnalysisType := "quality"
def AnalysisTypePatterns : AnalysisType := "patterns"
def AnalysisTypeSuggestions : AnalysisType := "suggestions"

def AnalysisStatusPending : AnalysisStatus := "pending"
def AnalysisStatusProcessing : AnalysisStatus := "processing"
def AnalysisStatusCompleted : AnalysisStatus := "completed"
def AnalysisStatusFailed : AnalysisStatus := "failed"

def SuggestionStatusPending : SuggestionStatus := "pending"
def SuggestionStatusAccepted : SuggestionStatus := "accepted"
def SuggestionStatusRejected : SuggestionStatus := "rejected"
def SuggestionStatusApplied : SuggestionStatus := "applied"

/-- Source: `domain.User`. -/
structure User where
  ID : Int := 0
  OpenID : GoString := ""
  Name : NullString := {}
  Email : NullString := {}
  LoginMethod : NullString := {}
  Role : UserRole := ""
  GithubUsername : NullString := {}
  GithubID : NullString := {}
  CreatedAt : Instant := 0
  UpdatedAt : Instant := 0
  LastSignedIn : Instant := 0
  deriving DecidableEq, Repr

/-- Source: `domain.Repository`; also a row of the table `repositories`. -/
structure Repository where
  ID : Int := 0
  UserID : Int := 0
  GithubID : GoString := ""
  Name : GoString := ""
  FullName : GoString := ""
  Description : NullString := {}
  URL : GoString := ""
  Language : NullString := {}
  IsPrivate : Bool := false
  Stars : Int := 0
  Forks : Int := 0
  Size : Int := 0
  DefaultBranch : GoString := ""
  LastCommitAt : NullTime := {}
  LastSyncAt : NullTime := {}
  CreatedAt : Instant := 0
  UpdatedAt : Instant := 0
  deriving DecidableEq, Repr

/-- Source: `domain.Analysis`; also a row of the table `analyses`. -/
structure Analysis where
  ID : Int := 0
  RepositoryID : Int := 0
  AnalysisType : AnalysisType := ""
  Status : AnalysisStatus := ""
  Result : NullString := {}
  Summary : NullString := {}
  Score : NullInt32 := {}
  ErrorMessage : NullString := {}
  CreatedAt : Instant := 0
  CompletedAt : NullTime := {}
  deriving DecidableEq, Repr

/-- Source: `domain.Feature`; also a row of the table `features`. -/
structure Feature where
  ID : Int := 0
  RepositoryID : Int := 0
  Name : GoString := ""
  Description : NullString := {}
  Category : NullString := {}
  FilePaths : NullString := {}
  CodeSnippet : NullString := {}
  Confidence : Int := 0
  CreatedAt : Instant := 0
  deriving DecidableEq, Repr

/-- Source: `domain.Suggestion`; also a row of the table `suggestions`. -/
structure Suggestion where
  ID : Int := 0
  RepositoryID : Int := 0
  SuggestionType : SuggestionType := ""
  Title : GoString := ""
  Description : GoString := ""
  SourceRepositoryID : NullInt32 := {}
  Priority : SuggestionPriority := ""
  Status : SuggestionStatus := ""
  CreatedAt : Instant := 0
  UpdatedAt : Instant := 0
  deriving DecidableEq, Repr

/-- Source: `domain.Technology`; also a row of the table `technologies`. -/
structure Technology where
  ID : Int := 0
  RepositoryID : Int := 0
  Name : GoString := ""
  Version : NullString := {}
  Type_ : TechnologyType := ""
  PackageManager : NullString := {}
  CreatedAt : Instant := 0
  deriving DecidableEq, Repr

/-! ## `domain/analysis_dto.go` -/

/-- An element of `RepositoryAnalysisResponse.Features`. -/
structure ResponseFeature where
  Name : GoString := ""
  Description : GoString := ""
  Category : GoString := ""
  Confidence : Int := 0
  FilePaths : List GoString := []
  deriving DecidableEq, Repr

/-- An element of `RepositoryAnalysisResponse.Technologies`. -/
structure ResponseTechnology where
  Name : GoString := ""
  Type_ : GoString := ""
  Version : GoString := ""
  deriving DecidableEq, Repr

/-- The field `RepositoryAnalysisResponse.Quality`. -/
structure ResponseQuality where
  Score : Int := 0
  Issues : List GoString := []
  Strengths : List GoString := []
  deriving DecidableEq, Repr

/-- An element of `RepositoryAnalysisResponse.Suggestions`. -/
structure ResponseSuggestion where
  Type_ : GoString := ""
  Title : GoString := ""
  Description : GoString := ""
  Priority : GoString := ""
  deriving DecidableEq, Repr

/-- Source: `domain.RepositoryAnalysisResponse`. -/
structure RepositoryAnalysisResponse where
  Architecture : GoString := ""
  Features : List ResponseFeature := []
  Technologies : List ResponseTechnology := []
  Patterns : List GoString := []
  Quality : ResponseQuality := {}
  Suggestions : List ResponseSuggestion := []
  deriving DecidableEq, Repr

/-- The loop `for _, f := range r.Features`; the `n`-th `time.Now()` of the call
reads `clock n`. -/
def toDomainFeatures (repoID : Int) (clock : Nat → Instant) :
    Nat → List ResponseFeature → List Feature
  | _, [] => []
  | n, f :: rest =>
    { RepositoryID := repoID
      Name := f.Name
      Description := SQLNullString f.Description
      Category := SQLNullString f.Category
      Confidence := f.Confidence
      CreatedAt := clock n } :: toDomainFeatures repoID clock (n + 1) rest

/-- The loop `for _, t := range r.Technologies`. -/
def toDomainTechnologies (repoID : Int) (clock : Nat → Instant) :
    Nat → List ResponseTechnology → List Technology
  | _, [] => []
  | n, t :: rest =>
    { RepositoryID := repoID
      Name := t.Name
      Version := SQLNullString t.Version
      Type_ := t.Type_
      CreatedAt := clock n } :: toDomainTechnologies repoID clock (n + 1) rest

/-- The loop `for _, s := range r.Suggestions`; each element reads the clock twice. -/
def toDomainSuggestions (repoID : Int) (clock : Nat → Instant) :
    Nat → List ResponseSuggestion → List Suggestion
  | _, [] => []
  | n, s :: rest =>
    { RepositoryID := repoID
      SuggestionType := s.Type_
      Title := s.Title
      Description := s.Description
      Priority := s.Priority
      Status := SuggestionStatusPending
      CreatedAt := clock n
      UpdatedAt := clock (n + 1) } :: toDomainSuggestions repoID clock (n + 2) rest

/-- Source: `RepositoryAnalysisResponse.ToDomain`. -/
def RepositoryAnalysisResponse.ToDomain (r : RepositoryAnalysisResponse) (repoID : Int)
    (clock : Nat → Instant) :
    Analysis × List Feature × List Technology × List Suggestion :=
  let analysis : Analysis :=
    { RepositoryID := repoID
      AnalysisType := AnalysisTypeArchitecture
      Status := AnalysisStatusCompleted
      Result := SQLNullString ""
      Summary := SQLNullString r.Architecture
      Score := SQLNullInt32 r.Quality.Score
      CreatedAt := clock 0 }
  let features := toDomainFeatures repoID clock 1 r.Features
  let techs := toDomainTechnologies repoID clock (1 + r.Features.length) r.Technologies
  let suggestions :=
    toDomainSuggestions repoID clock (1 + r.Features.length + r.Technologies.length)
      r.Suggestions
  (analysis, features, techs, suggestions)

/-! ## `adapters/storage/postgres` -/

/-- A table: its rows in table order and the sequence of its `id` column. -/
structure Table (α : Type) where
  rows : List α := []
  nextID : Int := 1
  deriving Repr

/-- Outcome of `QueryRow(...).Scan(&id)`. -/
inductive ScanID where
  | row (id : Int)
  | ErrNoRows
  | failed (err : GoError)
  deriving DecidableEq, Repr

/-- The statement
`SELECT id FROM repositories WHERE "userId" = $1 AND "githubId" = $2`
scanned into one id: the first matching row in table order. -/
def selectIDByUserAndGithub (rows : List Repository) (fault : Option GoError)
    (userID : Int) (githubID : GoString) : ScanID :=
  match fault with
  | some err => .failed err
  | none =>
    match rows.find? (fun r => r.UserID == userID && r.GithubID == githubID) with
    | some r => .row r.ID
    | none => .ErrNoRows

/-- The row written by the `INSERT INTO repositories (...) RETURNING id` of `Upsert`. -/
def insertedRow (id : Int) (now : Instant) (repo : Repository) : Repository :=
  { ID := id
    UserID := repo.UserID
    GithubID := repo.GithubID
    Name := repo.Name
    FullName := repo.FullName
    Description := repo.Description
    URL := repo.URL
    Language := repo.Language
    IsPrivate := repo.IsPrivate
    Stars := repo.Stars
    Forks := repo.Forks
    Size := repo.Size
    DefaultBranch := repo.DefaultBranch
    LastCommitAt := repo.LastCommitAt
    LastSyncAt := repo.LastSyncAt
    CreatedAt := now
    UpdatedAt := now }

/-- The effect of `UPDATE repositories SET ... WHERE id = $13` on one row. -/
def updatedRow (existingID : Int) (now : Instant) (repo row : Repository) : Repository :=
  if row.ID = existingID then
    { row with
      Name := repo.Name
      FullName := repo.FullName
      Description := repo.Description
      URL := repo.URL
      Language := repo.Language
      IsPrivate := repo.IsPrivate
      Stars := repo.Stars
      Forks := repo.Forks
      Size := repo.Size
      DefaultBranch := repo.DefaultBranch
      LastCommitAt := repo.LastCommitAt
      LastSyncAt := repo.LastSyncAt
      UpdatedAt := now }
  else row

/-- The statements of one `Upsert` transaction that can fail. -/
structure TxFaults where
  beginErr : Option GoError := none
  selectErr : Option GoError := none
  insertErr : Option GoError := none
  updateErr : Option GoError := none
  commitErr : Option GoError := none
  deriving DecidableEq, Repr

/-- What `RepositoryStore.Upsert` returns, and the table after the call. -/
structure UpsertResult where
  db : Table Repository
  id : Int
  err : Option GoError
  deriving Repr

/-- The final `return existingID, tx.Commit(ctx)`: a successful commit publishes the
rows of the transaction, a failed one leaves the rows as they were.  The sequence is
not transactional: a value drawn by the transaction stays drawn. -/
def commitTx (db : Table Repository) (txRows : List Repository) (txNextID : Int)
    (existingID : Int) (commitErr : Option GoError) : UpsertResult :=
  match commitErr with
  | some err => { db := { rows := db.rows, nextID := txNextID }, id := existingID, err := some err }
  | none => { db := { rows := txRows, nextID := txNextID }, id := existingID, err := none }

/-- Source: `RepositoryStore.Upsert` (the transactional manual check).  Every early
`return` runs the deferred `tx.Rollback`, which discards the transaction. -/
def RepositoryStore.Upsert (db : Table Repository) (faults : TxFaults) (now : Instant)
    (repo : Repository) : UpsertResult :=
  match faults.beginErr with
  | some err => { db := db, id := 0, err := some err }
  | none =>
    match selectIDByUserAndGithub db.rows faults.selectErr repo.UserID repo.GithubID with
    | .ErrNoRows =>
      match faults.insertErr with
      | some err => { db := db, id := 0, err := some (.wrapf "failed to insert repo: " err) }
      | none =>
        let existingID := db.nextID
        commitTx db (db.rows ++ [insertedRow existingID now repo]) (db.nextID + 1)
          existingID faults.commitErr
    | .failed err =>
      { db := db, id := 0, err := some (.wrapf "failed to check existing repo: " err) }
    | .row existingID =>
      match faults.updateErr with
      | some err => { db := db, id := 0, err := some (.wrapf "failed to update repo: " err) }
      | none =>
        commitTx db (db.rows.map (updatedRow existingID now repo)) db.nextID
          existingID faults.commitErr

/-- Source: `RepositoryStore.GetByID`: `SELECT ... FROM repositories WHERE id = $1`
scanned into one record; `pgx.ErrNoRows` becomes `(nil, nil)`. -/
def RepositoryStore.GetByID (db : Table Repository) (fault : Option GoError) (id : Int) :
    Option Repository × Option GoError :=
  match fault with
  | some err => (none, some (.wrapf "failed to get repository: " err))
  | none =>
    match db.rows.find? (fun r => r.ID == id) with
    | some r => (some r, none)
    | none => (none, none)

/-- Source: `AnalysisRepository.Create`: `INSERT INTO analyses (...) VALUES (..., NOW(), $8)
RETURNING id, "createdAt"`, scanned into `analysis.ID` and `analysis.CreatedAt`.
Returns the table, the record behind the pointer after the call, and `(int, error)`. -/
def AnalysisRepository.Create (tbl : Table Analysis) (fault : Option GoError) (now : Instant)
    (analysis : Analysis) : Table Analysis × Analysis × Int × Option GoError :=
  match fault with
  | some err => (tbl, analysis, 0, some (.wrapf "failed to create analysis: " err))
  | none =>
    let row : Analysis := { analysis with ID := tbl.nextID, CreatedAt := now }
    ({ rows := tbl.rows ++ [row], nextID := tbl.nextID + 1 }, row, row.ID, none)

/-- The rows a `CopyFrom` into `features` writes: the listed columns of each record, the
`id` column drawn from the sequence. -/
def copyFeatureRows : Int → List Feature → List Feature
  | _, [] => []
  | n, f :: rest => { f with ID := n } :: copyFeatureRows (n + 1) rest

/-- Source: `FeatureRepository.BulkCreate`. -/
def FeatureRepository.BulkCreate (tbl : Table Feature) (fault : Option GoError)
    (features : List Feature) : Table Feature × Option GoError :=
  if features.length = 0 then (tbl, none)
  else
    match fault with
    | some err => (tbl, some err)
    | none =>
      ({ rows := tbl.rows ++ copyFeatureRows tbl.nextID features,
         nextID := tbl.nextID + features.length }, none)

/-- The rows a `CopyFrom` into `technologies` writes. -/
def copyTechnologyRows : Int → List Technology → List Technology
  | _, [] => []
  | n, t :: rest => { t with ID := n } :: copyTechnologyRows (n + 1) rest

/-- Source: `TechnologyRepository.BulkCreate`. -/
def TechnologyRepository.BulkCreate (tbl : Table Technology) (fault : Option GoError)
    (techs : List Technology) : Table Technology × Option GoError :=
  if techs.length = 0 then (tbl, none)
  else
    match fault with
    | some err => (tbl, some err)
    | none =>
      ({ rows := tbl.rows ++ copyTechnologyRows tbl.nextID techs,
         nextID := tbl.nextID + techs.length }, none)

/-- Source: `SuggestionRepository.Create`: `INSERT INTO suggestions (...) VALUES
(..., NOW(), NOW()) RETURNING id`, scanned into a local `id`. -/
def SuggestionRepository.Create (tbl : Table Suggestion) (fault : Option GoError)
    (now : Instant) (suggestion : Suggestion) : Table Suggestion × Int × Option GoError :=
  match fault with
  | some err => (tbl, 0, some err)
  | none =>
    let row : Suggestion :=
      { suggestion with ID := tbl.nextID, CreatedAt := now, UpdatedAt := now }
    ({ rows := tbl.rows ++ [row], nextID := tbl.nextID + 1 }, row.ID, none)

/-- A row of the table `users`.  The text columns other than `openId` are nullable: a
`NullString` that is not `Valid` is SQL `NULL`. -/
structure UserRow where
  id : Int := 0
  openId : GoString := ""
  name : NullString := {}
  email : NullString := {}
  loginMethod : NullString := {}
  role : NullString := {}
  githubUsername : NullString := {}
  githubId : NullString := {}
  createdAt : Instant := 0
  updatedAt : Instant := 0
  lastSignedIn : Instant := 0
  deriving DecidableEq, Repr

/-- The SQL value a `sql.NullString` argument is sent as: `NULL` when it is not `Valid`. -/
def sqlText (n : NullString) : NullString :=
  if n.Valid then n else {}

/-- SQL `COALESCE(EXCLUDED.col, users.col)`. -/
def coalesce (excluded stored : NullString) : NullString :=
  if excluded.Valid then excluded else stored

/-- The `DO UPDATE SET ...` of `UserRepository.Upsert` applied to the conflicting row;
`role` is the text bound to `$5`, `lastSignedIn` the time bound to `$8`. -/
def onConflictUpdate (user : User) (role : GoString) (lastSignedIn now : Instant)
    (row : UserRow) : UserRow :=
  { row with
    name := coalesce (sqlText user.Name) row.name
    email := coalesce (sqlText user.Email) row.email
    loginMethod := coalesce (sqlText user.LoginMethod) row.loginMethod
    role := if row.role.Valid then row.role else { String := role, Valid := true }
    githubUsername := coalesce (sqlText user.GithubUsername) row.githubUsername
    githubId := coalesce (sqlText user.GithubID) row.githubId
    lastSignedIn := lastSignedIn
    updatedAt := now }

/-- Source: `UserRepository.Upsert`: `INSERT INTO users (...) VALUES (..., NOW())
ON CONFLICT ("openId") DO UPDATE SET ... RETURNING id, "createdAt"`, scanned into
`user.ID` and `user.CreatedAt`.  `goNow` is the reading of `time.Now()`, `now` is SQL
`NOW()`, also the default of the column `createdAt`.  The proposed row draws its id from
the sequence before the conflict is detected.  Returns the table, the record behind the
pointer after the call, and the error. -/
def UserRepository.Upsert (tbl : Table UserRow) (fault : Option GoError) (goNow now : Instant)
    (user : User) : Table UserRow × User × Option GoError :=
  let role : GoString := if user.Role = "" then "user" else user.Role
  let lastSignedIn : Instant := if user.LastSignedIn = 0 then goNow else user.LastSignedIn
  match fault with
  | some err => (tbl, user, some (.wrapf "failed to upsert user: " err))
  | none =>
    match tbl.rows.find? (fun r => r.openId == user.OpenID) with
    | some existing =>
      ({ rows := tbl.rows.map fun r =>
            if r.openId = user.OpenID then onConflictUpdate user role lastSignedIn now r else r
         nextID := tbl.nextID + 1 },
        { user with ID := existing.id, CreatedAt := existing.createdAt }, none)
    | none =>
      let row : UserRow :=
        { id := tbl.nextID
          openId := user.OpenID
          name := sqlText user.Name
          email := sqlText user.Email
          loginMethod := sqlText user.LoginMethod
          role := { String := role, Valid := true }
          githubUsername := sqlText user.GithubUsername
          githubId := sqlText user.GithubID
          createdAt := now
          updatedAt := now
          lastSignedIn := lastSignedIn }
      ({ rows := tbl.rows ++ [row], nextID := tbl.nextID + 1 },
        { user with ID := row.id, CreatedAt := row.createdAt }, none)

/-- A Go `interface{}` value bound to a statement placeholder. -/
inductive GoAny where
  | str (s : GoString)
  | int (i : Int)
  | bool (b : Bool)
  | uuid (s : GoString)
  | null
  deriving DecidableEq, Repr

/-- A call `Pool.Exec(ctx, query, args...)`. -/
structure ExecCall where
  query : GoString
  args : List GoAny
  deriving DecidableEq, Repr

/-- The loop `for k, v := range updates` of `UnificationRepository.Update`, on the
entries of the map in the order the iteration visits them: the state is `query`, `args`
and `i`. -/
def unificationSetLoop :
    List (GoString × GoAny) → GoString → List GoAny → Nat → GoString × List GoAny × Nat
  | [], query, args, i => (query, args, i)
  | (k, v) :: rest, query, args, i =>
    unificationSetLoop rest (query ++ ("\"" ++ k ++ "\" = $" ++ toString i ++ ", "))
      (args ++ [v]) (i + 1)

/-- Source: `UnificationRepository.Update`: the statement it executes (none for an empty
map) and the error it returns.  A Go map is given as the list of its entries, keys
distinct, in iteration order. -/
def UnificationRepository.Update (fault : Option GoError) (operationID : GoString)
    (updates : List (GoString × GoAny)) : Option ExecCall × Option GoError :=
  if updates.length = 0 then (none, none)
  else
    let st := unificationSetLoop updates "UPDATE \"unificationOperations\" SET " [] 1
    let query := st.1 ++ ("\"updatedAt\" = NOW() WHERE \"operationId\" = $" ++ toString st.2.2)
    let args := st.2.1 ++ [GoAny.uuid operationID]
    (some { query := query, args := args }, fault)

/-- The `switch k` of `AnalysisRepository.Update`: the whitelisted column names. -/
def analysisUpdateWhitelisted (k : GoString) : Bool :=
  k == "status" || k == "result" || k == "summary" || k == "score" ||
    k == "errorMessage" || k == "completedAt"

/-- The loop `for k, v := range updates` of `AnalysisRepository.Update`, on the entries
of the map in the order the iteration visits them: the state is `query`, `args`, `i`. -/
def analysisSetLoop :
    List (GoString × GoAny) → GoString → List GoAny → Nat → GoString × List GoAny × Nat
  | [], query, args, i => (query, args, i)
  | (k, v) :: rest, query, args, i =>
    if analysisUpdateWhitelisted k then
      analysisSetLoop rest (query ++ ("\"" ++ k ++ "\" = $" ++ toString i ++ ", "))
        (args ++ [v]) (i + 1)
    else analysisSetLoop rest query args i

/-- Go `query[:len(query)-2]`.  The slice counts bytes; the two bytes cut here are always
two one-byte characters (`", "` after an assignment, `"T "` otherwise), so it is the
string without its last two characters. -/
def dropLastTwo (query : GoString) : GoString :=
  ⟨query.data.take (query.data.length - 2)⟩

/-- Source: `AnalysisRepository.Update`: the statement it executes (none for an empty
map) and the error it returns.  A Go map is given as the list of its entries, keys
distinct, in iteration order. -/
def AnalysisRepository.Update (fault : Option GoError) (id : Int)
    (updates : List (GoString × GoAny)) : Option ExecCall × Option GoError :=
  if updates.length = 0 then (none, none)
  else
    let st := analysisSetLoop updates "UPDATE analyses SET " [] 1
    let query := dropLastTwo st.1 ++ (" WHERE id = $" ++ toString st.2.2)
    let args := st.2.1 ++ [GoAny.int id]
    (some { query := query, args := args }, fault)

/-- Source: `SuggestionRepository.GetByRepositoryID`: `SELECT ... FROM suggestions WHERE
"repositoryId" = $1`, the rows in table order; a failing query or scan returns
`(nil, err)`. -/
def SuggestionRepository.GetByRepositoryID (tbl : Table Suggestion) (fault : Option GoError)
    (repoID : Int) : List Suggestion × Option GoError :=
  match fault with
  | some err => ([], some err)
  | none => (tbl.rows.filter (fun s => s.RepositoryID == repoID), none)

/-- Source: `UserRepository.GetByID`: `SELECT ... FROM users WHERE id = $1` scanned into
one record, the role through a Go `string`; `pgx.ErrNoRows` becomes `(nil, nil)`. -/
def UserRepository.GetByID (tbl : Table UserRow) (fault : Option GoError) (id : Int) :
    Option User × Option GoError :=
  match fault with
  | some err => (none, some (.wrapf "failed to get user by id: " err))
  | none =>
    match tbl.rows.find? (fun r => r.id == id) with
    | none => (none, none)
    | some row =>
      if row.role.Valid then
        (some
          { ID := row.id
            OpenID := row.openId
            Name := row.name
            Email := row.email
            LoginMethod := row.loginMethod
            Role := row.role.String
            GithubUsername := row.githubUsername
            GithubID := row.githubId
            CreatedAt := row.createdAt
            UpdatedAt := row.updatedAt
            LastSignedIn := row.lastSignedIn }, none)
      else
        (none, some (.wrapf "failed to get user by id: "
          (.new "cannot scan NULL into *string")))

/-! ## `config/config.go` -/

/-- Source: `config.Config`; a `time.Duration` is its number of nanoseconds. -/
structure Config where
  Port : GoString := ""
  DatabaseURL : GoString := ""
  APIKey : GoString := ""
  LogLevel : GoString := ""
  SkipBackendCheck : Bool := false
  AllowedOrigins : List GoString := []
  ServerTimeout : Int := 0
  BackendTimeout : Int := 0
  ShutdownTimeout : Int := 0
  RedisEnabled : Bool := false
  RedisAddr : GoString := ""
  RedisPassword : GoString := ""
  RedisDB : Int := 0
  RedisPrefix : GoString := ""
  MaxRequestSize : Int := 0
  RateLimitRPS : Int := 0
  MaxBulkRepos : Int := 0
  deriving DecidableEq, Repr

/-- Source: `Config.Validate`; an `ErrInvalidConfig` is the error with that message. -/
def Config.Validate (c : Config) : Option GoError :=
  if c.Port = "" then some (.new "PORT cannot be empty")
  else if c.DatabaseURL = "" then some (.new "DATABASE_URL cannot be empty")
  else if c.ServerTimeout ≤ 0 then some (.new "SERVER_TIMEOUT must be positive")
  else if c.MaxRequestSize ≤ 0 then some (.new "MAX_REQUEST_SIZE must be positive")
  else none

/-! ## `adapters/ai/gemini.go` -/

/-- Go `strings.TrimPrefix`. -/
def TrimPrefix (s pre : GoString) : GoString :=
  if pre.data.isPrefixOf s.data then ⟨s.data.drop pre.data.length⟩ else s

/-- Go `strings.TrimSuffix`. -/
def TrimSuffix (s suf : GoString) : GoString :=
  if suf.data.isSuffixOf s.data then ⟨s.data.take (s.data.length - suf.data.length)⟩ else s

/-- A `genai.Part` of the model's answer: text, or a part of another kind. -/
inductive Part where
  | Text (txt : GoString)
  | other
  deriving DecidableEq, Repr

/-- The loop `for _, part := range resp.Candidates[0].Content.Parts`: the text parts
concatenated onto `rawJSON`. -/
def extractText : List Part → GoString → GoString
  | [], rawJSON => rawJSON
  | .Text txt :: rest, rawJSON => extractText rest (rawJSON ++ txt)
  | .other :: rest, rawJSON => extractText rest rawJSON

/-- Source: `GeminiClient.AnalyzeRepository`, from the extraction of the text to the call
of `json.Unmarshal`: the text handed to the JSON decoder. -/
def decoderInput (parts : List Part) : GoString :=
  let rawJSON := extractText parts ""
  let rawJSON := TrimPrefix rawJSON "```json"
  let rawJSON := TrimPrefix rawJSON "```"
  let rawJSON := TrimSuffix rawJSON "```"
  rawJSON

/-! ## `core/services` -/

/-- A call made by a service on one of its collaborators, with the error it returned
where the service looks at it, or an error-level log line. -/
inductive Event where
  | userGetByID (id : Int)
  | ghGetUserRepositories (username : GoString)
  | repoUpsert (repo : Repository) (err : Option GoError)
  | repoGetByID (id : Int)
  | aiAnalyzeRepository (prompt : GoString)
  | analysisCreate (analysis : Analysis) (err : Option GoError)
  | featureBulkCreate (features : List Feature) (err : Option GoError)
  | technologyBulkCreate (techs : List Technology) (err : Option GoError)
  | suggestionCreate (suggestion : Suggestion) (err : Option GoError)
  | suggestionGetByRepositoryID (id : Int)
  | logError (msg : GoString) (err : GoError)
  deriving DecidableEq, Repr

/-- The persisted state the services act on, and the calls made so far. -/
structure World where
  repositories : Table Repository := {}
  analyses : Table Analysis := {}
  features : Table Feature := {}
  technologies : Table Technology := {}
  suggestions : Table Suggestion := {}
  trace : List Event := []
  deriving Repr

/-- Appends one event to the trace. -/
def World.emit (w : World) (e : Event) : World :=
  { w with trace := w.trace ++ [e] }

/-- Emits `log.Error().Err(err).Msg(msg)` when `err` is not nil. -/
def World.logIfErr (w : World) (msg : GoString) (err : Option GoError) : World :=
  match err with
  | some e => w.emit (.logError msg e)
  | none => w

/-- The collaborators of `GitHubServiceImpl` and the environment of one call:
the user store and the source-platform gateway as the results they return (the gateway
returns a slice of non-nil pointers, as `mapGitHubRepoToDomain` builds them), and for
the `i`-th iteration of the loop the reading of `time.Now()`, the outcome of each
statement of the upsert and its `NOW()`. -/
structure SyncEnv where
  userGetByID : Int → Option User × Option GoError
  ghGetUserRepositories : GoString → List Repository × Option GoError
  clock : Nat → Instant
  upsertFaults : Nat → TxFaults
  sqlNow : Nat → Instant

/-- What `SyncUserRepositories` returns, and the world after the call. -/
structure SyncRun where
  err : Option GoError
  world : World
  deriving Repr

/-- The stamping done at the top of the loop body:
`repo.UserID = userID; repo.LastSyncAt.Time = time.Now(); repo.LastSyncAt.Valid = true`. -/
def stampRepo (userID : Int) (now : Instant) (repo : Repository) : Repository :=
  { repo with UserID := userID, LastSyncAt := { Time := now, Valid := true } }

/-- The loop `for _, repo := range repos` of `SyncUserRepositories`, from iteration `i`. -/
def syncLoop (env : SyncEnv) (userID : Int) : Nat → List Repository → World → World
  | _, [], w => w
  | i, repo :: rest, w =>
    let repo := stampRepo userID (env.clock i) repo
    let res := RepositoryStore.Upsert w.repositories (env.upsertFaults i) (env.sqlNow i) repo
    let w := ({ w with repositories := res.db }).emit (.repoUpsert repo res.err)
    let w := w.logIfErr "Failed to upsert repository" res.err
    syncLoop env userID (i + 1) rest w

/-- Source: `GitHubServiceImpl.SyncUserRepositories`. -/
def GitHubServiceImpl.SyncUserRepositories (env : SyncEnv) (w : World) (userID : Int)
    (_openID : GoString) : GoResult SyncRun :=
  let w := w.emit (.userGetByID userID)
  match env.userGetByID userID with
  | (_, some err) => .returned { err := some (.wrapf "user not found: " err), world := w }
  | (none, none) => .panic "invalid memory address or nil pointer dereference"
  | (some user, none) =>
    if !user.GithubUsername.Valid then
      .returned { err := some (.new "user has no github username linked"), world := w }
    else
      let w := w.emit (.ghGetUserRepositories user.GithubUsername.String)
      match env.ghGetUserRepositories user.GithubUsername.String with
      | (_, some err) => .returned { err := some err, world := w }
      | (repos, none) => .returned { err := none, world := syncLoop env userID 0 repos w }

/-- The collaborators of `AIAnalysisServiceImpl` and the environment of one call: the AI
gateway as the result it returns, the readings of `time.Now()`, and for each store
statement whether it fails and its `NOW()`. -/
structure AnalyzeEnv where
  aiAnalyzeRepository : GoString → Option RepositoryAnalysisResponse × Option GoError
  clock : Nat → Instant
  getRepoFault : Option GoError
  analysisFault : Option GoError
  analysisNow : Instant
  featuresFault : Option GoError
  technologiesFault : Option GoError
  suggestionFault : Nat → Option GoError
  suggestionNow : Nat → Instant

/-- What `AnalyzeRepository` returns, and the world after the call. -/
structure AnalyzeRun where
  analysis : Option Analysis
  err : Option GoError
  world : World
  deriving Repr

/-- The prompt built with `fmt.Sprintf` from the repository metadata. -/
def buildPrompt (repo : Repository) : GoString :=
  "\nAnalyze this repository:\nName: " ++ repo.FullName ++
  "\nDescription: " ++ repo.Description.String ++
  "\nLanguage: " ++ repo.Language.String ++
  "\nStars: " ++ toString repo.Stars ++
  "\nURL: " ++ repo.URL ++ "\n"

/-- The block `if len(features) > 0 then BulkCreate, log on error`. -/
def saveFeatures (env : AnalyzeEnv) (features : List Feature) (w : World) : World :=
  if features.length > 0 then
    let res := FeatureRepository.BulkCreate w.features env.featuresFault features
    let w := ({ w with features := res.1 }).emit (.featureBulkCreate features res.2)
    w.logIfErr "Failed to save features" res.2
  else w

/-- The block `if len(techs) > 0 then BulkCreate, log on error`. -/
def saveTechnologies (env : AnalyzeEnv) (techs : List Technology) (w : World) : World :=
  if techs.length > 0 then
    let res := TechnologyRepository.BulkCreate w.technologies env.technologiesFault techs
    let w := ({ w with technologies := res.1 }).emit (.technologyBulkCreate techs res.2)
    w.logIfErr "Failed to save technologies" res.2
  else w

/-- The loop `for _, sugg := range suggestions` of `AnalyzeRepository`, from iteration `k`. -/
def saveSuggestions (env : AnalyzeEnv) : Nat → List Suggestion → World → World
  | _, [], w => w
  | k, sugg :: rest, w =>
    let res := SuggestionRepository.Create w.suggestions (env.suggestionFault k)
      (env.suggestionNow k) sugg
    let w := ({ w with suggestions := res.1 }).emit (.suggestionCreate sugg res.2.2)
    let w := w.logIfErr "Failed to save suggestion" res.2.2
    saveSuggestions env (k + 1) rest w

/-- Source: `AIAnalysisServiceImpl.AnalyzeRepository`. -/
def AIAnalysisServiceImpl.AnalyzeRepository (env : AnalyzeEnv) (w : World) (repoID : Int)
    (analysisType : AnalysisType) : GoResult AnalyzeRun :=
  let w := w.emit (.repoGetByID repoID)
  match RepositoryStore.GetByID w.repositories env.getRepoFault repoID with
  | (_, some err) =>
    .returned { analysis := none, err := some (.wrapf "failed to get repository: " err), world := w }
  | (none, none) =>
    .returned { analysis := none, err := some (.new "repository not found"), world := w }
  | (some repo, none) =>
    let prompt := buildPrompt repo
    let w := w.emit (.aiAnalyzeRepository prompt)
    match env.aiAnalyzeRepository prompt with
    | (_, some err) =>
      .returned { analysis := none, err := some (.wrapf "AI analysis failed: " err), world := w }
    | (none, none) => .panic "invalid memory address or nil pointer dereference"
    | (some response, none) =>
      let (analysis, features, techs, suggestions) := response.ToDomain repoID env.clock
      let analysis := { analysis with AnalysisType := analysisType }
      let created := AnalysisRepository.Create w.analyses env.analysisFault env.analysisNow analysis
      let w := ({ w with analyses := created.1 }).emit (.analysisCreate analysis created.2.2.2)
      match created.2.2.2 with
      | some err =>
        .returned { analysis := none, err := some (.wrapf "failed to save analysis: " err), world := w }
      | none =>
        let analysis := { created.2.1 with ID := created.2.2.1 }
        let w := saveFeatures env features w
        let w := saveTechnologies env techs w
        let w := saveSuggestions env 0 suggestions w
        .returned { analysis := some analysis, err := none, world := w }

/-- What `GenerateSuggestions` returns, and the world after the call. -/
structure SuggestionsRun where
  suggestions : List Suggestion
  err : Option GoError
  world : World
  deriving Repr

/-- Source: `AIAnalysisServiceImpl.GenerateSuggestions`; `fault` is the failure of the
store's query, if any. -/
def AIAnalysisServiceImpl.GenerateSuggestions (fault : Option GoError) (w : World)
    (repoID : Int) : SuggestionsRun :=
  let w := w.emit (.suggestionGetByRepositoryID repoID)
  let res := SuggestionRepository.GetByRepositoryID w.suggestions fault repoID
  { suggestions := res.1, err := res.2, world := w }

/-- Source: `GitHubServiceImpl.AnalyzeDependencies`; `fault` is the failure of the
repository lookup, if any.  The argument `repo.FullName` of the log line is read
whatever the log level. -/
def GitHubServiceImpl.AnalyzeDependencies (fault : Option GoError) (w : World)
    (repoID : Int) : GoResult SyncRun :=
  let w := w.emit (.repoGetByID repoID)
  match RepositoryStore.GetByID w.repositories fault repoID with
  | (_, some err) => .returned { err := some err, world := w }
  | (none, none) => .panic "invalid memory address or nil pointer dereference"
  | (some _, none) => .returned { err := none, world := w }

/-! ## Vocabulary of the statements -/

/-- The rows `repo` is reconciled against: same `(UserID, GithubID)`. -/
def samePair (repo row : Repository) : Bool :=
  row.UserID == repo.UserID && row.GithubID == repo.GithubID

/-- The natural key of a row. -/
def pairOf (row : Repository) : Int × GoString :=
  (row.UserID, row.GithubID)

/-- Each `(UserID, GithubID)` pair occurs in at most one row. -/
def PairUnique (rows : List Repository) : Prop :=
  (rows.map pairOf).Nodup

instance (rows : List Repository) : Decidable (PairUnique rows) :=
  inferInstanceAs (Decidable (List.Nodup _))

/-- Two versions of one repository, as two successive syncs fetch it. -/
def exampleRepoV1 : Repository :=
  { UserID := 1, GithubID := "101", Name := "repo1", FullName := "octo/repo1", Stars := 1 }

/-- The later version of `exampleRepoV1`: renamed, with more stars. -/
def exampleRepoV2 : Repository :=
  { UserID := 1, GithubID := "101", Name := "renamed", FullName := "octo/renamed", Stars := 5 }

/-- The upserts attempted in a trace, each with the error it returned. -/
def upsertAttempts (trace : List Event) : List (Repository × Option GoError) :=
  trace.filterMap fun e =>
    match e with
    | .repoUpsert repo err => some (repo, err)
    | _ => none

/-- The usernames the source-platform gateway was asked to list in a trace. -/
def gatewayCalls (trace : List Event) : List GoString :=
  trace.filterMap fun e =>
    match e with
    | .ghGetUserRepositories username => some username
    | _ => none

/-- The records the loop of `SyncUserRepositories` hands to `Upsert` for a fetched list,
counting iterations from `i`. -/
def stampedFrom (env : SyncEnv) (userID : Int) : Nat → List Repository → List Repository
  | _, [] => []
  | i, repo :: rest => stampRepo userID (env.clock i) repo :: stampedFrom env userID (i + 1) rest

/-- The user of the service tests: linked to the username `testuser`. -/
def exampleUser : User :=
  { ID := 1, OpenID := "test-openid", GithubUsername := SQLNullString "testuser" }

/-- A gateway that returns three repositories, and a store whose second upsert fails. -/
def exampleSyncEnv : SyncEnv :=
  { userGetByID := fun _ => (some exampleUser, none)
    ghGetUserRepositories := fun _ =>
      ([{ Name := "repo1", GithubID := "101" }, { Name := "repo2", GithubID := "102" },
        { Name := "repo3", GithubID := "103" }], none)
    clock := fun i => 100 + i
    upsertFaults := fun i => if i = 1 then { insertErr := some (.new "bad row") } else {}
    sqlNow := fun i => 200 + i }

/-- A user store whose user has no linked username. -/
def exampleUnlinkedEnv : SyncEnv :=
  { exampleSyncEnv with userGetByID := fun _ => (some { ID := 1 }, none) }

/-- A gateway whose list call fails. -/
def exampleGatewayDownEnv : SyncEnv :=
  { exampleSyncEnv with ghGetUserRepositories := fun _ => ([], some (.new "api error")) }

/-- The prompts sent to the AI gateway in a trace. -/
def aiCalls (trace : List Event) : List GoString :=
  trace.filterMap fun e =>
    match e with
    | .aiAnalyzeRepository prompt => some prompt
    | _ => none

/-- A response with two features, one technology and no suggestion. -/
def exampleResponse : RepositoryAnalysisResponse :=
  { Architecture := "Microservices"
    Features := [{ Name := "Auth", Description := "Login", Confidence := 90 },
      { Name := "Billing", Confidence := 70 }]
    Technologies := [{ Name := "Go", Type_ := "language" }] }

/-- An AI gateway that answers `exampleResponse`, and stores that never fail. -/
def exampleAnalyzeEnv : AnalyzeEnv :=
  { aiAnalyzeRepository := fun _ => (some exampleResponse, none)
    clock := fun n => 300 + n
    getRepoFault := none
    analysisFault := none
    analysisNow := 400
    featuresFault := none
    technologiesFault := none
    suggestionFault := fun _ => none
    suggestionNow := fun k => 500 + k }

/-- An AI gateway whose call fails. -/
def exampleAIDownEnv : AnalyzeEnv :=
  { exampleAnalyzeEnv with aiAnalyzeRepository := fun _ => (none, some (.new "ai error")) }

/-- A world whose only repository has id 1. -/
def exampleWorld : World :=
  { repositories := { rows := [insertedRow 1 10 exampleRepoV1], nextID := 2 } }

/-- An optional text field `n` normalised from the response string `s`: absent exactly
when `s` is empty, otherwise present and carrying `s` unchanged. -/
def AbsentIffEmpty (n : NullString) (s : GoString) : Prop :=
  (n.Valid = false ↔ s = "") ∧ (s ≠ "" → n.Valid = true ∧ n.String = s)

/-- The analyses handed to the analysis store in a trace, each with the error returned. -/
def analysisCreates (trace : List Event) : List (Analysis × Option GoError) :=
  trace.filterMap fun e =>
    match e with
    | .analysisCreate analysis err => some (analysis, err)
    | _ => none

/-- The feature bulk inserts attempted in a trace, each with the error returned. -/
def featureBulkCreates (trace : List Event) : List (List Feature × Option GoError) :=
  trace.filterMap fun e =>
    match e with
    | .featureBulkCreate features err => some (features, err)
    | _ => none

/-- The technology bulk inserts attempted in a trace, each with the error returned. -/
def technologyBulkCreates (trace : List Event) : List (List Technology × Option GoError) :=
  trace.filterMap fun e =>
    match e with
    | .technologyBulkCreate techs err => some (techs, err)
    | _ => none

/-- The suggestion inserts attempted in a trace, each with the error returned. -/
def suggestionCreates (trace : List Event) : List (Suggestion × Option GoError) :=
  trace.filterMap fun e =>
    match e with
    | .suggestionCreate suggestion err => some (suggestion, err)
    | _ => none

/-- A response with one suggestion and no quality score. -/
def exampleSuggestionResponse : RepositoryAnalysisResponse :=
  { Architecture := ""
    Features := [{ Name := "Auth" }]
    Technologies := [{ Name := "Go", Type_ := "language", Version := "1.22" }]
    Suggestions := [{ Type_ := "refactor", Title := "Split handler", Description := "Too long",
                      Priority := "high" },
                    { Type_ := "best_practice", Title := "Add tests", Description := "None yet",
                      Priority := "medium" }] }

/-- An AI gateway that answers `exampleSuggestionResponse`; both bulk inserts and the
first suggestion insert fail. -/
def exampleDegradedEnv : AnalyzeEnv :=
  { exampleAnalyzeEnv with
    aiAnalyzeRepository := fun _ => (some exampleSuggestionResponse, none)
    featuresFault := some (.new "copy failed")
    technologiesFault := some (.new "copy failed")
    suggestionFault := fun k => if k = 0 then some (.new "insert failed") else none }

/-- An AI gateway that answers, and an analysis store whose insert fails. -/
def exampleAnalysisStoreDownEnv : AnalyzeEnv :=
  { exampleAnalyzeEnv with analysisFault := some (.new "db down") }

/-- A users table whose only user is an admin. -/
def exampleUsers : Table UserRow :=
  { rows := [{ id := 1, openId := "open-123", name := { String := "John", Valid := true },
               role := { String := "admin", Valid := true }, createdAt := 5, updatedAt := 5,
               lastSignedIn := 5 }]
    nextID := 2 }

/-- The writes into the collections of an analysis: a Feature or Technology bulk insert,
or a Suggestion insert. -/
def isCollectionWrite : Event → Bool
  | .featureBulkCreate _ _ => true
  | .technologyBulkCreate _ _ => true
  | .suggestionCreate _ _ => true
  | _ => false

/-- A column assignment `"k" = $i` of a SET clause. -/
def assignment (k : GoString) (i : Nat) : GoString :=
  "\"" ++ k ++ "\" = $" ++ toString i

/-- The SET clause naming the keys of `entries`, each once, in order, with the
placeholders `$i`, `$(i+1)`, ... and `", "` between two assignments. -/
def setClause : Nat → List (GoString × GoAny) → GoString
  | _, [] => ""
  | i, [(k, _)] => assignment k i
  | i, (k, _) :: rest => assignment k i ++ ", " ++ setClause (i + 1) rest

/-- A user store backed by the table `exampleUsers`. -/
def exampleUsersEnv : SyncEnv :=
  { exampleSyncEnv with userGetByID := fun id => UserRepository.GetByID exampleUsers none id }

/-! ## Lemmas -/

theorem select_eq (rows : List Repository) (repo : Repository) :
    selectIDByUserAndGithub rows none repo.UserID repo.GithubID =
      match rows.find? (samePair repo) with
      | some r => .row r.ID
      | none => .ErrNoRows := by
  rfl

theorem select_fault (rows : List Repository) (e : GoError) (u : Int) (g : GoString) :
    selectIDByUserAndGithub rows (some e) u g = .failed e := by
  rfl

theorem samePair_iff (repo row : Repository) :
    samePair repo row = true ↔ pairOf row = pairOf repo := by
  simp [samePair, pairOf, Prod.ext_iff]

theorem samePair_congr (r1 r2 : Repository) (hu : r1.UserID = r2.UserID)
    (hg : r1.GithubID = r2.GithubID) : samePair r1 = samePair r2 := by
  funext row
  simp [samePair, hu, hg]

theorem pairOf_updatedRow (e : Int) (now : Instant) (repo row : Repository) :
    pairOf (updatedRow e now repo row) = pairOf row := by
  unfold updatedRow
  split <;> rfl

theorem samePair_updatedRow (e : Int) (now : Instant) (repo key row : Repository) :
    samePair key (updatedRow e now repo row) = samePair key row := by
  unfold updatedRow
  split <;> rfl

theorem ID_updatedRow (e : Int) (now : Instant) (repo row : Repository) :
    (updatedRow e now repo row).ID = row.ID := by
  unfold updatedRow
  split <;> rfl

theorem Upsert_ok_insert (db : Table Repository) (faults : TxFaults) (now : Instant)
    (repo : Repository) (hnone : db.rows.find? (samePair repo) = none)
    (hok : (RepositoryStore.Upsert db faults now repo).err = none) :
    (RepositoryStore.Upsert db faults now repo).db.rows
        = db.rows ++ [insertedRow db.nextID now repo] ∧
      (RepositoryStore.Upsert db faults now repo).id = db.nextID ∧
      (RepositoryStore.Upsert db faults now repo).db.nextID = db.nextID + 1 := by
  rcases faults with ⟨b, s, i, u, c⟩
  cases b <;> cases s <;> cases i <;> cases c <;>
    simp [RepositoryStore.Upsert, select_eq, select_fault, hnone, commitTx] at hok ⊢

theorem Upsert_ok_update (db : Table Repository) (faults : TxFaults) (now : Instant)
    (repo row : Repository) (hsome : db.rows.find? (samePair repo) = some row)
    (hok : (RepositoryStore.Upsert db faults now repo).err = none) :
    (RepositoryStore.Upsert db faults now repo).db.rows
        = db.rows.map (updatedRow row.ID now repo) ∧
      (RepositoryStore.Upsert db faults now repo).id = row.ID ∧
      (RepositoryStore.Upsert db faults now repo).db.nextID = db.nextID := by
  rcases faults with ⟨b, s, i, u, c⟩
  cases b <;> cases s <;> cases u <;> cases c <;>
    simp [RepositoryStore.Upsert, select_eq, select_fault, hsome, commitTx] at hok ⊢

theorem Upsert_err_rows (db : Table Repository) (faults : TxFaults) (now : Instant)
    (repo : Repository) (herr : (RepositoryStore.Upsert db faults now repo).err ≠ none) :
    (RepositoryStore.Upsert db faults now repo).db.rows = db.rows := by
  rcases faults with ⟨b, s, i, u, c⟩
  cases hf : db.rows.find? (samePair repo) <;>
  cases b <;> cases s <;> cases i <;> cases u <;> cases c <;>
    simp [RepositoryStore.Upsert, select_eq, select_fault, hf, commitTx] at herr ⊢

theorem find_none_of_fresh (rows : List Repository) (repo : Repository)
    (hfresh : ∀ row ∈ rows, samePair repo row = false) :
    rows.find? (samePair repo) = none := by
  simpa [List.find?_eq_none] using hfresh

theorem filter_nil_of_fresh (rows : List Repository) (repo : Repository)
    (hfresh : ∀ row ∈ rows, samePair repo row = false) :
    rows.filter (samePair repo) = [] := by
  simpa [List.filter_eq_nil_iff] using hfresh

theorem find_append_fresh (rows : List Repository) (repo x : Repository)
    (hfresh : ∀ row ∈ rows, samePair repo row = false) (hx : samePair repo x = true) :
    (rows ++ [x]).find? (samePair repo) = some x := by
  rw [List.find?_append, find_none_of_fresh rows repo hfresh]
  simp [List.find?, hx]

theorem samePair_insertedRow (id : Int) (now : Instant) (repo : Repository) :
    samePair repo (insertedRow id now repo) = true := by
  simp [samePair, insertedRow]

theorem filter_map_updatedRow (e : Int) (now : Instant) (repo key : Repository)
    (rows : List Repository) :
    (rows.map (updatedRow e now repo)).filter (samePair key)
      = (rows.filter (samePair key)).map (updatedRow e now repo) := by
  induction rows with
  | nil => rfl
  | cons a l ih =>
    simp only [List.map_cons, List.filter_cons, samePair_updatedRow, ih]
    split <;> simp

/-- C1. Two successful upserts of records with the same `(UserID, GithubID)`, starting
from a store with no row for the pair, leave exactly one row for the pair, and that row
carries the second record's name, full name, description, URL, language, visibility,
stars, forks, size, default branch, last-commit time and last-sync time. -/
theorem upsert_twice_last_write_wins (db : Table Repository) (f1 f2 : TxFaults)
    (t1 t2 : Instant) (r1 r2 : Repository)
    (huser : r1.UserID = r2.UserID) (hgithub : r1.GithubID = r2.GithubID)
    (hfresh : ∀ row ∈ db.rows, samePair r1 row = false)
    (h1 : (RepositoryStore.Upsert db f1 t1 r1).err = none)
    (h2 : (RepositoryStore.Upsert (RepositoryStore.Upsert db f1 t1 r1).db f2 t2 r2).err = none) :
    ∃ row : Repository,
      (RepositoryStore.Upsert (RepositoryStore.Upsert db f1 t1 r1).db f2 t2 r2).db.rows.filter
          (samePair r1) = [row] ∧
      row.Name = r2.Name ∧ row.FullName = r2.FullName ∧ row.Description = r2.Description ∧
      row.URL = r2.URL ∧ row.Language = r2.Language ∧ row.IsPrivate = r2.IsPrivate ∧
      row.Stars = r2.Stars ∧ row.Forks = r2.Forks ∧ row.Size = r2.Size ∧
      row.DefaultBranch = r2.DefaultBranch ∧ row.LastCommitAt = r2.LastCommitAt ∧
      row.LastSyncAt = r2.LastSyncAt := by
  have hkey : samePair r2 = samePair r1 := (samePair_congr r1 r2 huser hgithub).symm
  obtain ⟨hrows1, -, -⟩ :=
    Upsert_ok_insert db f1 t1 r1 (find_none_of_fresh db.rows r1 hfresh) h1
  have hfind : (RepositoryStore.Upsert db f1 t1 r1).db.rows.find? (samePair r2)
      = some (insertedRow db.nextID t1 r1) := by
    rw [hrows1, hkey]
    exact find_append_fresh db.rows r1 _ hfresh (samePair_insertedRow _ _ _)
  obtain ⟨hrows2, -, -⟩ := Upsert_ok_update _ f2 t2 r2 _ hfind h2
  refine ⟨updatedRow db.nextID t2 r2 (insertedRow db.nextID t1 r1), ?_, ?_⟩
  · rw [hrows2, hrows1, filter_map_updatedRow, List.filter_append,
      filter_nil_of_fresh db.rows r1 hfresh]
    have hid : (insertedRow db.nextID t1 r1).ID = db.nextID := rfl
    simp [List.filter_cons, samePair_insertedRow, hid]
  · simp [updatedRow, insertedRow]

theorem upsert_twice_last_write_wins_witness :
    (RepositoryStore.Upsert {} {} 10 exampleRepoV1).err = none ∧
    (RepositoryStore.Upsert (RepositoryStore.Upsert {} {} 10 exampleRepoV1).db {} 20
        exampleRepoV2).err = none ∧
    ∃ row : Repository,
      (RepositoryStore.Upsert (RepositoryStore.Upsert {} {} 10 exampleRepoV1).db {} 20
          exampleRepoV2).db.rows.filter (samePair exampleRepoV1) = [row] ∧
      row.Name = "renamed" ∧ row.Stars = 5 := by
  refine ⟨rfl, rfl, ?_⟩
  obtain ⟨row, hrow, hname, -, -, -, -, -, hstars, -⟩ :=
    upsert_twice_last_write_wins {} {} {} 10 20 exampleRepoV1 exampleRepoV2 rfl rfl
      (by simp) rfl rfl
  exact ⟨row, hrow, hname, hstars⟩

/-- C2. `Upsert` is atomic: when a step of the transaction fails (opening it, the
existence lookup, the insert on the no-row path, the update on the row-found path, or
the commit) the caller receives an error and the rows of the store are those before
the call. -/
theorem upsert_atomic (db : Table Repository) (faults : TxFaults) (now : Instant)
    (repo : Repository)
    (hfail : faults.beginErr ≠ none ∨ faults.selectErr ≠ none ∨
      ((∀ row ∈ db.rows, samePair repo row = false) ∧ faults.insertErr ≠ none) ∨
      ((∃ row ∈ db.rows, samePair repo row = true) ∧ faults.updateErr ≠ none) ∨
      faults.commitErr ≠ none) :
    (RepositoryStore.Upsert db faults now repo).err ≠ none ∧
    (RepositoryStore.Upsert db faults now repo).db.rows = db.rows := by
  have herr : (RepositoryStore.Upsert db faults now repo).err ≠ none := by
    rcases faults with ⟨b, s, i, u, c⟩
    cases hf : db.rows.find? (samePair repo) with
    | none =>
      have hno : ¬ ∃ row ∈ db.rows, samePair repo row = true := by
        simpa [List.find?_eq_none] using hf
      have hfail2 : b ≠ none ∨ s ≠ none ∨ i ≠ none ∨ c ≠ none := by
        rcases hfail with h | h | h | h | h
        · exact Or.inl h
        · exact Or.inr (Or.inl h)
        · exact Or.inr (Or.inr (Or.inl h.2))
        · exact absurd h.1 hno
        · exact Or.inr (Or.inr (Or.inr h))
      clear hfail
      cases b <;> cases s <;> cases i <;> cases c <;>
        simp [RepositoryStore.Upsert, select_eq, select_fault, hf, commitTx] at hfail2 ⊢
    | some row =>
      have hyes : ¬ ∀ row ∈ db.rows, samePair repo row = false := by
        intro hall
        rw [find_none_of_fresh db.rows repo hall] at hf
        cases hf
      have hfail2 : b ≠ none ∨ s ≠ none ∨ u ≠ none ∨ c ≠ none := by
        rcases hfail with h | h | h | h | h
        · exact Or.inl h
        · exact Or.inr (Or.inl h)
        · exact absurd h.1 hyes
        · exact Or.inr (Or.inr (Or.inl h.2))
        · exact Or.inr (Or.inr (Or.inr h))
      clear hfail
      cases b <;> cases s <;> cases u <;> cases c <;>
        simp [RepositoryStore.Upsert, select_eq, select_fault, hf, commitTx] at hfail2 ⊢
  exact ⟨herr, Upsert_err_rows db faults now repo herr⟩

theorem upsert_atomic_witness :
    (RepositoryStore.Upsert
        { rows := [insertedRow 1 10 exampleRepoV1], nextID := 2 }
        { commitErr := some (.new "connection reset") } 20 exampleRepoV2).err
      = some (.new "connection reset") ∧
    (RepositoryStore.Upsert
        { rows := [insertedRow 1 10 exampleRepoV1], nextID := 2 }
        { commitErr := some (.new "connection reset") } 20 exampleRepoV2).db.rows
      = [insertedRow 1 10 exampleRepoV1] :=
  ⟨rfl,
    (upsert_atomic { rows := [insertedRow 1 10 exampleRepoV1], nextID := 2 }
      { commitErr := some (.new "connection reset") } 20 exampleRepoV2
      (Or.inr (Or.inr (Or.inr (Or.inr (by simp)))))).2⟩

/-- C3. Uniqueness of `(UserID, GithubID)` is an invariant of `Upsert`: if each pair
occurs in at most one row before the call, the same holds after it, whether the call
succeeds or fails. -/
theorem upsert_preserves_pair_uniqueness (db : Table Repository) (faults : TxFaults)
    (now : Instant) (repo : Repository) (huniq : PairUnique db.rows) :
    PairUnique (RepositoryStore.Upsert db faults now repo).db.rows := by
  by_cases herr : (RepositoryStore.Upsert db faults now repo).err = none
  · cases hf : db.rows.find? (samePair repo) with
    | none =>
      rw [(Upsert_ok_insert db faults now repo hf herr).1]
      have hnot : pairOf (insertedRow db.nextID now repo) ∉ db.rows.map pairOf := by
        intro hmem
        obtain ⟨row, hrow, hpair⟩ := List.mem_map.1 hmem
        have hsame : samePair repo row = true := (samePair_iff repo row).2 hpair
        have := List.find?_eq_none.1 hf row hrow
        exact this hsame
      unfold PairUnique at *
      rw [List.map_append, List.nodup_append]
      refine ⟨huniq, by simp, ?_⟩
      intro a ha hb
      simp only [List.map_cons, List.map_nil, List.mem_singleton] at hb
      exact hnot (hb ▸ ha)
    | some row =>
      rw [(Upsert_ok_update db faults now repo row hf herr).1]
      unfold PairUnique at *
      rw [List.map_map]
      have hfun : pairOf ∘ updatedRow row.ID now repo = pairOf := by
        funext x
        exact pairOf_updatedRow _ _ _ _
      rw [hfun]
      exact huniq
  · rw [Upsert_err_rows db faults now repo herr]
    exact huniq

theorem upsert_preserves_pair_uniqueness_witness :
    PairUnique [insertedRow 1 10 exampleRepoV1] ∧
    PairUnique (RepositoryStore.Upsert
      { rows := [insertedRow 1 10 exampleRepoV1], nextID := 2 } {} 20 exampleRepoV2).db.rows :=
  ⟨by decide,
    upsert_preserves_pair_uniqueness { rows := [insertedRow 1 10 exampleRepoV1], nextID := 2 }
      {} 20 exampleRepoV2 (by decide)⟩

/-- C4. A successful `Upsert` returns the id of the already existing row when a row
with the record's `(UserID, GithubID)` exists (the first such row in table order; no
row changes its id or its pair and no id is generated), and otherwise the generated id
of the row it has just inserted; a second successful upsert for the same pair returns
the same id. -/
theorem upsert_returns_persisted_id (db : Table Repository) (faults : TxFaults)
    (now : Instant) (repo : Repository)
    (hok : (RepositoryStore.Upsert db faults now repo).err = none) :
    ((∃ row ∈ db.rows, samePair repo row = true) →
      (∃ row ∈ db.rows, db.rows.find? (samePair repo) = some row ∧
        (RepositoryStore.Upsert db faults now repo).id = row.ID) ∧
      (RepositoryStore.Upsert db faults now repo).db.rows.map (fun r => (r.ID, pairOf r))
        = db.rows.map (fun r => (r.ID, pairOf r)) ∧
      (RepositoryStore.Upsert db faults now repo).db.nextID = db.nextID) ∧
    ((∀ row ∈ db.rows, samePair repo row = false) →
      (RepositoryStore.Upsert db faults now repo).id = db.nextID ∧
      (RepositoryStore.Upsert db faults now repo).db.rows
        = db.rows ++ [insertedRow db.nextID now repo] ∧
      (insertedRow db.nextID now repo).ID = db.nextID) ∧
    (∀ (faults2 : TxFaults) (now2 : Instant) (repo2 : Repository),
      repo2.UserID = repo.UserID → repo2.GithubID = repo.GithubID →
      (RepositoryStore.Upsert (RepositoryStore.Upsert db faults now repo).db faults2 now2
        repo2).err = none →
      (RepositoryStore.Upsert (RepositoryStore.Upsert db faults now repo).db faults2 now2
        repo2).id = (RepositoryStore.Upsert db faults now repo).id) := by
  refine ⟨?_, ?_, ?_⟩
  · rintro ⟨row, hrow, hsame⟩
    cases hf : db.rows.find? (samePair repo) with
    | none => exact absurd hsame (List.find?_eq_none.1 hf row hrow)
    | some first =>
      obtain ⟨hrows, hid, hnext⟩ := Upsert_ok_update db faults now repo first hf hok
      refine ⟨⟨first, List.mem_of_find?_eq_some hf, rfl, hid⟩, ?_, hnext⟩
      rw [hrows, List.map_map]
      apply List.map_congr_left
      intro x _
      simp [ID_updatedRow, pairOf_updatedRow]
  · intro hfresh
    obtain ⟨hrows, hid, -⟩ :=
      Upsert_ok_insert db faults now repo (find_none_of_fresh db.rows repo hfresh) hok
    exact ⟨hid, hrows, rfl⟩
  · intro faults2 now2 repo2 hu hg hok2
    have hkey : samePair repo2 = samePair repo := samePair_congr repo2 repo hu hg
    cases hf : db.rows.find? (samePair repo) with
    | none =>
      obtain ⟨hrows, hid, -⟩ := Upsert_ok_insert db faults now repo hf hok
      have hfresh : ∀ row ∈ db.rows, samePair repo row = false := by
        simpa [List.find?_eq_none] using hf
      have hfind : (RepositoryStore.Upsert db faults now repo).db.rows.find? (samePair repo2)
          = some (insertedRow db.nextID now repo) := by
        rw [hrows, hkey]
        exact find_append_fresh db.rows repo _ hfresh (samePair_insertedRow _ _ _)
      rw [(Upsert_ok_update _ faults2 now2 repo2 _ hfind hok2).2.1, hid]
      rfl
    | some first =>
      obtain ⟨hrows, hid, -⟩ := Upsert_ok_update db faults now repo first hf hok
      have hfind : (RepositoryStore.Upsert db faults now repo).db.rows.find? (samePair repo2)
          = some (updatedRow first.ID now repo first) := by
        rw [hrows, hkey, List.find?_map]
        have hfun : samePair repo ∘ updatedRow first.ID now repo = samePair repo := by
          funext x
          exact samePair_updatedRow _ _ _ _ _
        rw [hfun, hf]
        rfl
      rw [(Upsert_ok_update _ faults2 now2 repo2 _ hfind hok2).2.1, hid, ID_updatedRow]

theorem upsert_returns_persisted_id_witness :
    (RepositoryStore.Upsert {} {} 10 exampleRepoV1).err = none ∧
    (RepositoryStore.Upsert {} {} 10 exampleRepoV1).id = 1 ∧
    (RepositoryStore.Upsert (RepositoryStore.Upsert {} {} 10 exampleRepoV1).db {} 20
        exampleRepoV2).id = (RepositoryStore.Upsert {} {} 10 exampleRepoV1).id :=
  ⟨rfl, rfl,
    (upsert_returns_persisted_id {} {} 10 exampleRepoV1 rfl).2.2 {} 20 exampleRepoV2
      rfl rfl rfl⟩

theorem upsertAttempts_append (t1 t2 : List Event) :
    upsertAttempts (t1 ++ t2) = upsertAttempts t1 ++ upsertAttempts t2 := by
  simp [upsertAttempts, List.filterMap_append]

theorem gatewayCalls_append (t1 t2 : List Event) :
    gatewayCalls (t1 ++ t2) = gatewayCalls t1 ++ gatewayCalls t2 := by
  simp [gatewayCalls, List.filterMap_append]

theorem trace_logIfErr (w : World) (msg : GoString) (err : Option GoError) :
    ∃ logs : List Event, (w.logIfErr msg err).trace = w.trace ++ logs ∧
      upsertAttempts logs = [] ∧ gatewayCalls logs = [] := by
  cases err with
  | none => exact ⟨[], by simp [World.logIfErr], rfl, rfl⟩
  | some e => exact ⟨[.logError msg e], by simp [World.logIfErr, World.emit], rfl, rfl⟩

theorem repositories_logIfErr (w : World) (msg : GoString) (err : Option GoError) :
    (w.logIfErr msg err).repositories = w.repositories := by
  cases err <;> rfl

theorem Upsert_pairs (db : Table Repository) (faults : TxFaults) (now : Instant)
    (repo : Repository) (p : Int × GoString) :
    p ∈ (RepositoryStore.Upsert db faults now repo).db.rows.map pairOf ↔
      p ∈ db.rows.map pairOf ∨
        ((RepositoryStore.Upsert db faults now repo).err = none ∧ pairOf repo = p) := by
  by_cases herr : (RepositoryStore.Upsert db faults now repo).err = none
  · cases hf : db.rows.find? (samePair repo) with
    | none =>
      rw [(Upsert_ok_insert db faults now repo hf herr).1]
      have hp : pairOf (insertedRow db.nextID now repo) = pairOf repo := rfl
      simp [herr, hp, eq_comm]
    | some row =>
      rw [(Upsert_ok_update db faults now repo row hf herr).1, List.map_map]
      have hfun : pairOf ∘ updatedRow row.ID now repo = pairOf := by
        funext x
        exact pairOf_updatedRow _ _ _ _
      rw [hfun]
      constructor
      · exact Or.inl
      · rintro (h | ⟨-, h⟩)
        · exact h
        · rw [← h, ← (samePair_iff repo row).1 (List.find?_some hf)]
          exact List.mem_map_of_mem _ (List.mem_of_find?_eq_some hf)
  · rw [Upsert_err_rows db faults now repo herr]
    simp [herr]

theorem stampedFrom_githubIDs (env : SyncEnv) (userID : Int) (repos : List Repository) :
    ∀ i, (stampedFrom env userID i repos).map (fun r => r.GithubID)
      = repos.map (fun r => r.GithubID) := by
  induction repos with
  | nil => intro i; rfl
  | cons a l ih => intro i; simp [stampedFrom, stampRepo, ih]

theorem syncLoop_spec (env : SyncEnv) (userID : Int) (repos : List Repository) :
    ∀ (i : Nat) (w : World), ∃ errs : List (Option GoError),
      errs.length = repos.length ∧
      upsertAttempts (syncLoop env userID i repos w).trace
        = upsertAttempts w.trace ++ (stampedFrom env userID i repos).zip errs ∧
      gatewayCalls (syncLoop env userID i repos w).trace = gatewayCalls w.trace ∧
      ∀ p : Int × GoString,
        p ∈ (syncLoop env userID i repos w).repositories.rows.map pairOf ↔
          p ∈ w.repositories.rows.map pairOf ∨
            ∃ a ∈ (stampedFrom env userID i repos).zip errs, a.2 = none ∧ pairOf a.1 = p := by
  induction repos with
  | nil =>
    intro i w
    exact ⟨[], rfl, by simp [syncLoop, stampedFrom], rfl, by simp [syncLoop, stampedFrom]⟩
  | cons repo rest ih =>
    intro i w
    obtain ⟨logs, hlogs, hlogsU, hlogsG⟩ := trace_logIfErr
      (({ w with repositories := (RepositoryStore.Upsert w.repositories (env.upsertFaults i)
          (env.sqlNow i) (stampRepo userID (env.clock i) repo)).db }).emit
        (.repoUpsert (stampRepo userID (env.clock i) repo)
          (RepositoryStore.Upsert w.repositories (env.upsertFaults i)
            (env.sqlNow i) (stampRepo userID (env.clock i) repo)).err))
      "Failed to upsert repository"
      (RepositoryStore.Upsert w.repositories (env.upsertFaults i)
        (env.sqlNow i) (stampRepo userID (env.clock i) repo)).err
    obtain ⟨errs, hlen, htrace, hgw, hrows⟩ := ih (i + 1)
      ((({ w with repositories := (RepositoryStore.Upsert w.repositories (env.upsertFaults i)
          (env.sqlNow i) (stampRepo userID (env.clock i) repo)).db }).emit
        (.repoUpsert (stampRepo userID (env.clock i) repo)
          (RepositoryStore.Upsert w.repositories (env.upsertFaults i)
            (env.sqlNow i) (stampRepo userID (env.clock i) repo)).err)).logIfErr
        "Failed to upsert repository"
        (RepositoryStore.Upsert w.repositories (env.upsertFaults i)
          (env.sqlNow i) (stampRepo userID (env.clock i) repo)).err)
    refine ⟨(RepositoryStore.Upsert w.repositories (env.upsertFaults i)
        (env.sqlNow i) (stampRepo userID (env.clock i) repo)).err :: errs, by simp [hlen], ?_, ?_, ?_⟩
    · simp only [syncLoop, stampedFrom, List.zip_cons_cons]
      rw [htrace, hlogs, upsertAttempts_append, hlogsU]
      simp [World.emit, upsertAttempts_append, upsertAttempts]
    · simp only [syncLoop]
      rw [hgw, hlogs, gatewayCalls_append, hlogsG]
      simp [World.emit, gatewayCalls_append, gatewayCalls]
    · intro p
      simp only [syncLoop, stampedFrom, List.zip_cons_cons]
      rw [hrows p, repositories_logIfErr]
      simp only [World.emit, Upsert_pairs, List.mem_cons]
      constructor
      · rintro ((h | h) | ⟨a, ha, h⟩)
        · exact Or.inl h
        · exact Or.inr ⟨_, Or.inl rfl, h⟩
        · exact Or.inr ⟨a, Or.inr ha, h⟩
      · rintro (h | ⟨a, ha | ha, h⟩)
        · exact Or.inl (Or.inl h)
        · subst ha
          exact Or.inl (Or.inr h)
        · exact Or.inr ⟨a, ha, h⟩

/-- C5. Partial-success law of `SyncUserRepositories`: for a linked user and a list of
repositories returned by the gateway, whatever upserts fail, the call returns a nil error,
attempts the upsert of every fetched repository exactly once, stamped, in list order
(`errs` holds the error each attempt returned), and the pairs `(UserID, GithubID)` in
the store afterwards are those that were there before together with those of the
attempts that succeeded. -/
theorem sync_partial_success (env : SyncEnv) (w : World) (userID : Int) (openID : GoString)
    (user : User) (repos : List Repository)
    (huser : env.userGetByID userID = (some user, none))
    (hlinked : user.GithubUsername.Valid = true)
    (hlist : env.ghGetUserRepositories user.GithubUsername.String = (repos, none)) :
    ∃ (run : SyncRun) (errs : List (Option GoError)),
      GitHubServiceImpl.SyncUserRepositories env w userID openID = .returned run ∧
      run.err = none ∧
      errs.length = repos.length ∧
      (stampedFrom env userID 0 repos).map (fun r => r.GithubID)
        = repos.map (fun r => r.GithubID) ∧
      upsertAttempts run.world.trace
        = upsertAttempts w.trace ++ (stampedFrom env userID 0 repos).zip errs ∧
      ∀ p : Int × GoString,
        p ∈ run.world.repositories.rows.map pairOf ↔
          p ∈ w.repositories.rows.map pairOf ∨
            ∃ a ∈ (stampedFrom env userID 0 repos).zip errs, a.2 = none ∧ pairOf a.1 = p := by
  obtain ⟨errs, hlen, htrace, -, hrows⟩ := syncLoop_spec env userID repos 0
    ((w.emit (.userGetByID userID)).emit (.ghGetUserRepositories user.GithubUsername.String))
  refine ⟨SyncRun.mk none (syncLoop env userID 0 repos
      ((w.emit (.userGetByID userID)).emit
        (.ghGetUserRepositories user.GithubUsername.String))), errs, ?_, rfl, hlen,
    stampedFrom_githubIDs env userID repos 0, ?_, ?_⟩
  · simp [GitHubServiceImpl.SyncUserRepositories, huser, hlinked, hlist]
  · rw [htrace]
    simp [World.emit, upsertAttempts_append, upsertAttempts]
  · intro p
    rw [hrows p]
    rfl

theorem sync_partial_success_witness :
    (∃ run : SyncRun,
      GitHubServiceImpl.SyncUserRepositories exampleSyncEnv {} 1 "test-openid" = .returned run ∧
      run.err = none) ∧
    (match GitHubServiceImpl.SyncUserRepositories exampleSyncEnv {} 1 "test-openid" with
      | .returned run => run.world.repositories.rows.map (fun r => r.Name)
      | .panic _ => []) = ["repo1", "repo3"] := by
  constructor
  · obtain ⟨run, -, hrun, herr, -⟩ :=
      sync_partial_success exampleSyncEnv {} 1 "test-openid" exampleUser
        [{ Name := "repo1", GithubID := "101" }, { Name := "repo2", GithubID := "102" },
          { Name := "repo3", GithubID := "103" }] rfl rfl rfl
    exact ⟨run, hrun, herr⟩
  · rfl

/-- C6. For a user whose `GithubUsername` is not valid, `SyncUserRepositories` returns an
error whose message contains "no github username linked"; the only call it makes is the
user lookup: no gateway call, no upsert, the repositories untouched. -/
theorem sync_not_linked (env : SyncEnv) (w : World) (userID : Int) (openID : GoString)
    (user : User)
    (huser : env.userGetByID userID = (some user, none))
    (hnot : user.GithubUsername.Valid = false) :
    ∃ (run : SyncRun) (e : GoError),
      GitHubServiceImpl.SyncUserRepositories env w userID openID = .returned run ∧
      run.err = some e ∧
      Contains e.Error "no github username linked" ∧
      run.world = w.emit (.userGetByID userID) ∧
      gatewayCalls run.world.trace = gatewayCalls w.trace ∧
      upsertAttempts run.world.trace = upsertAttempts w.trace ∧
      run.world.repositories = w.repositories := by
  refine ⟨SyncRun.mk (some (.new "user has no github username linked"))
      (w.emit (.userGetByID userID)), _, ?_, rfl, ⟨"user has ", "", by decide⟩, rfl, ?_, ?_, rfl⟩
  · simp [GitHubServiceImpl.SyncUserRepositories, huser, hnot]
  · simp [World.emit, gatewayCalls_append, gatewayCalls]
  · simp [World.emit, upsertAttempts_append, upsertAttempts]

theorem sync_not_linked_witness :
    ∃ (run : SyncRun) (e : GoError),
      GitHubServiceImpl.SyncUserRepositories exampleUnlinkedEnv {} 1 "" = .returned run ∧
      run.err = some e ∧ Contains e.Error "no github username linked" ∧
      gatewayCalls run.world.trace = [] ∧ upsertAttempts run.world.trace = [] := by
  obtain ⟨run, e, hrun, herr, hmsg, -, hgw, hup, -⟩ :=
    sync_not_linked exampleUnlinkedEnv {} 1 "" { ID := 1 } rfl rfl
  exact ⟨run, e, hrun, herr, hmsg, hgw, hup⟩

/-- C7. For a linked user, when the repository-list call of the gateway returns an error
`e`, `SyncUserRepositories` returns exactly `e` and performs no upsert. -/
theorem sync_gateway_error_unchanged (env : SyncEnv) (w : World) (userID : Int)
    (openID : GoString) (user : User) (repos : List Repository) (e : GoError)
    (huser : env.userGetByID userID = (some user, none))
    (hlinked : user.GithubUsername.Valid = true)
    (hlist : env.ghGetUserRepositories user.GithubUsername.String = (repos, some e)) :
    ∃ run : SyncRun,
      GitHubServiceImpl.SyncUserRepositories env w userID openID = .returned run ∧
      run.err = some e ∧
      upsertAttempts run.world.trace = upsertAttempts w.trace ∧
      run.world.repositories = w.repositories := by
  refine ⟨SyncRun.mk (some e) ((w.emit (.userGetByID userID)).emit
      (.ghGetUserRepositories user.GithubUsername.String)), ?_, rfl, ?_, rfl⟩
  · simp [GitHubServiceImpl.SyncUserRepositories, huser, hlinked, hlist]
  · simp [World.emit, upsertAttempts_append, upsertAttempts]

theorem sync_gateway_error_unchanged_witness :
    ∃ run : SyncRun,
      GitHubServiceImpl.SyncUserRepositories exampleGatewayDownEnv {} 1 "" = .returned run ∧
      run.err = some (.new "api error") ∧ upsertAttempts run.world.trace = [] := by
  obtain ⟨run, hrun, herr, hup, -⟩ :=
    sync_gateway_error_unchanged exampleGatewayDownEnv {} 1 "" exampleUser []
      (.new "api error") rfl rfl rfl
  exact ⟨run, hrun, herr, hup⟩

theorem toDomainFeatures_repo (repoID : Int) (clock : Nat → Instant)
    (l : List ResponseFeature) :
    ∀ n, (toDomainFeatures repoID clock n l).map (fun f => f.RepositoryID)
      = l.map (fun _ => repoID) := by
  induction l with
  | nil => intro n; rfl
  | cons a l ih => intro n; simp [toDomainFeatures, ih]

theorem toDomainTechnologies_repo (repoID : Int) (clock : Nat → Instant)
    (l : List ResponseTechnology) :
    ∀ n, (toDomainTechnologies repoID clock n l).map (fun t => t.RepositoryID)
      = l.map (fun _ => repoID) := by
  induction l with
  | nil => intro n; rfl
  | cons a l ih => intro n; simp [toDomainTechnologies, ih]

theorem toDomainSuggestions_repo (repoID : Int) (clock : Nat → Instant)
    (l : List ResponseSuggestion) :
    ∀ n, (toDomainSuggestions repoID clock n l).map (fun s => s.RepositoryID)
      = l.map (fun _ => repoID) := by
  induction l with
  | nil => intro n; rfl
  | cons a l ih => intro n; simp [toDomainSuggestions, ih]

theorem copyFeatureRows_repo (l : List Feature) :
    ∀ n, (copyFeatureRows n l).map (fun f => f.RepositoryID)
      = l.map (fun f => f.RepositoryID) := by
  induction l with
  | nil => intro n; rfl
  | cons a l ih => intro n; simp [copyFeatureRows, ih]

theorem copyTechnologyRows_repo (l : List Technology) :
    ∀ n, (copyTechnologyRows n l).map (fun t => t.RepositoryID)
      = l.map (fun t => t.RepositoryID) := by
  induction l with
  | nil => intro n; rfl
  | cons a l ih => intro n; simp [copyTechnologyRows, ih]

/-- A list all of whose entries project to `c` under `f`. -/
theorem all_eq_of_map_const {α β γ : Type} (f : α → β) (c : β) (xs : List α) (ys : List γ)
    (h : xs.map f = ys.map (fun _ => c)) :
    xs.length = ys.length ∧ ∀ x ∈ xs, f x = c := by
  constructor
  · simpa using congrArg List.length h
  · intro x hx
    have hmem : f x ∈ ys.map (fun _ => c) := h ▸ List.mem_map_of_mem f hx
    obtain ⟨_, -, hc⟩ := List.mem_map.1 hmem
    exact hc.symm

theorem saveFeatures_frame (env : AnalyzeEnv) (features : List Feature) (w : World) :
    (saveFeatures env features w).repositories = w.repositories ∧
    (saveFeatures env features w).analyses = w.analyses ∧
    (saveFeatures env features w).technologies = w.technologies ∧
    (saveFeatures env features w).suggestions = w.suggestions := by
  unfold saveFeatures
  split
  · cases h : (FeatureRepository.BulkCreate w.features env.featuresFault features).2 <;>
      simp [World.logIfErr, World.emit, h]
  · simp

theorem saveTechnologies_frame (env : AnalyzeEnv) (techs : List Technology) (w : World) :
    (saveTechnologies env techs w).repositories = w.repositories ∧
    (saveTechnologies env techs w).analyses = w.analyses ∧
    (saveTechnologies env techs w).features = w.features ∧
    (saveTechnologies env techs w).suggestions = w.suggestions := by
  unfold saveTechnologies
  split
  · cases h : (TechnologyRepository.BulkCreate w.technologies env.technologiesFault techs).2 <;>
      simp [World.logIfErr, World.emit, h]
  · simp

theorem saveSuggestions_frame (env : AnalyzeEnv) (suggestions : List Suggestion) :
    ∀ (k : Nat) (w : World),
      (saveSuggestions env k suggestions w).repositories = w.repositories ∧
      (saveSuggestions env k suggestions w).analyses = w.analyses ∧
      (saveSuggestions env k suggestions w).features = w.features ∧
      (saveSuggestions env k suggestions w).technologies = w.technologies := by
  induction suggestions with
  | nil => intro k w; simp [saveSuggestions]
  | cons s rest ih =>
    intro k w
    simp only [saveSuggestions]
    obtain ⟨h1, h2, h3, h4⟩ := ih (k + 1)
      ((({ w with suggestions := (SuggestionRepository.Create w.suggestions
          (env.suggestionFault k) (env.suggestionNow k) s).1 }).emit
        (.suggestionCreate s (SuggestionRepository.Create w.suggestions
          (env.suggestionFault k) (env.suggestionNow k) s).2.2)).logIfErr
        "Failed to save suggestion" (SuggestionRepository.Create w.suggestions
          (env.suggestionFault k) (env.suggestionNow k) s).2.2)
    rw [h1, h2, h3, h4]
    cases (SuggestionRepository.Create w.suggestions
      (env.suggestionFault k) (env.suggestionNow k) s).2.2 <;> simp [World.logIfErr, World.emit]

theorem saveFeatures_rows (env : AnalyzeEnv) (features : List Feature) (w : World)
    (hfault : env.featuresFault = none) :
    (saveFeatures env features w).features.rows
      = w.features.rows ++ copyFeatureRows w.features.nextID features := by
  cases features with
  | nil => simp [saveFeatures, copyFeatureRows]
  | cons a l =>
    simp [saveFeatures, FeatureRepository.BulkCreate, hfault, World.logIfErr, World.emit]

theorem saveTechnologies_rows (env : AnalyzeEnv) (techs : List Technology) (w : World)
    (hfault : env.technologiesFault = none) :
    (saveTechnologies env techs w).technologies.rows
      = w.technologies.rows ++ copyTechnologyRows w.technologies.nextID techs := by
  cases techs with
  | nil => simp [saveTechnologies, copyTechnologyRows]
  | cons a l =>
    simp [saveTechnologies, TechnologyRepository.BulkCreate, hfault, World.logIfErr,
      World.emit]

theorem saveSuggestions_rows (env : AnalyzeEnv) (hfault : ∀ k, env.suggestionFault k = none)
    (suggestions : List Suggestion) :
    ∀ (k : Nat) (w : World), ∃ ss : List Suggestion,
      (saveSuggestions env k suggestions w).suggestions.rows = w.suggestions.rows ++ ss ∧
      ss.map (fun s => s.RepositoryID) = suggestions.map (fun s => s.RepositoryID) := by
  induction suggestions with
  | nil => intro k w; exact ⟨[], by simp [saveSuggestions], rfl⟩
  | cons s rest ih =>
    intro k w
    simp only [saveSuggestions, SuggestionRepository.Create, hfault, World.logIfErr]
    obtain ⟨ss, hrows, hmap⟩ := ih (k + 1)
      (({ w with suggestions :=
          { rows := w.suggestions.rows ++
              [{ s with ID := w.suggestions.nextID, CreatedAt := env.suggestionNow k,
                        UpdatedAt := env.suggestionNow k }],
            nextID := w.suggestions.nextID + 1 } }).emit (.suggestionCreate s none))
    refine ⟨{ s with ID := w.suggestions.nextID, CreatedAt := env.suggestionNow k,
                     UpdatedAt := env.suggestionNow k } :: ss, ?_, by simp [hmap]⟩
    rw [hrows]
    simp [World.emit]

theorem contains_wrapf (pre sub rest : GoString) (e : GoError) (h : pre = sub ++ rest) :
    Contains (GoError.wrapf pre e).Error sub := by
  refine ⟨"", rest ++ e.Error, ?_⟩
  subst h
  simp [GoError.Error, String.append_assoc]

/-- C8. When the repository store reports no repository (nil result, nil error),
`AnalyzeRepository` returns no Analysis and an error whose message contains "not found",
makes no AI gateway call and leaves the analyses, features, technologies and suggestions
as they were. -/
theorem analyze_repository_not_found (env : AnalyzeEnv) (w : World) (repoID : Int)
    (analysisType : AnalysisType)
    (hrepo : RepositoryStore.GetByID w.repositories env.getRepoFault repoID = (none, none)) :
    ∃ (run : AnalyzeRun) (e : GoError),
      AIAnalysisServiceImpl.AnalyzeRepository env w repoID analysisType = .returned run ∧
      run.analysis = none ∧ run.err = some e ∧ Contains e.Error "not found" ∧
      aiCalls run.world.trace = aiCalls w.trace ∧
      run.world.analyses = w.analyses ∧ run.world.features = w.features ∧
      run.world.technologies = w.technologies ∧ run.world.suggestions = w.suggestions := by
  refine ⟨AnalyzeRun.mk none (some (.new "repository not found")) (w.emit (.repoGetByID repoID)),
    _, ?_, rfl, rfl, ⟨"repository ", "", by decide⟩, ?_, rfl, rfl, rfl, rfl⟩
  · have h : RepositoryStore.GetByID (w.emit (.repoGetByID repoID)).repositories
        env.getRepoFault repoID = (none, none) := hrepo
    simp [AIAnalysisServiceImpl.AnalyzeRepository, h]
  · simp [World.emit, aiCalls]

theorem analyze_repository_not_found_witness :
    ∃ (run : AnalyzeRun) (e : GoError),
      AIAnalysisServiceImpl.AnalyzeRepository exampleAnalyzeEnv exampleWorld 99
        AnalysisTypeArchitecture = .returned run ∧
      run.analysis = none ∧ run.err = some e ∧ Contains e.Error "not found" ∧
      aiCalls run.world.trace = [] := by
  obtain ⟨run, e, hrun, hnone, herr, hmsg, hai, -⟩ :=
    analyze_repository_not_found exampleAnalyzeEnv exampleWorld 99 AnalysisTypeArchitecture rfl
  exact ⟨run, e, hrun, hnone, herr, hmsg, hai⟩

/-- C9. For an existing repository, when the AI gateway call returns an error `e`,
`AnalyzeRepository` returns no Analysis and an error whose message contains
"AI analysis failed" and which unwraps to `e`, and leaves the analyses, features,
technologies and suggestions as they were. -/
theorem analyze_ai_failure_wrapped (env : AnalyzeEnv) (w : World) (repoID : Int)
    (analysisType : AnalysisType) (repo : Repository)
    (response : Option RepositoryAnalysisResponse) (e : GoError)
    (hrepo : RepositoryStore.GetByID w.repositories env.getRepoFault repoID = (some repo, none))
    (hai : env.aiAnalyzeRepository (buildPrompt repo) = (response, some e)) :
    ∃ (run : AnalyzeRun) (err : GoError),
      AIAnalysisServiceImpl.AnalyzeRepository env w repoID analysisType = .returned run ∧
      run.analysis = none ∧ run.err = some err ∧
      Contains err.Error "AI analysis failed" ∧ err.Unwrap = some e ∧
      run.world.analyses = w.analyses ∧ run.world.features = w.features ∧
      run.world.technologies = w.technologies ∧ run.world.suggestions = w.suggestions := by
  refine ⟨AnalyzeRun.mk none (some (.wrapf "AI analysis failed: " e))
      ((w.emit (.repoGetByID repoID)).emit (.aiAnalyzeRepository (buildPrompt repo))),
    _, ?_, rfl, rfl, contains_wrapf _ _ ": " e (by decide), rfl, rfl, rfl, rfl, rfl⟩
  have h : RepositoryStore.GetByID (w.emit (.repoGetByID repoID)).repositories
      env.getRepoFault repoID = (some repo, none) := hrepo
  simp [AIAnalysisServiceImpl.AnalyzeRepository, h, hai]

theorem analyze_ai_failure_wrapped_witness :
    ∃ (run : AnalyzeRun) (err : GoError),
      AIAnalysisServiceImpl.AnalyzeRepository exampleAIDownEnv exampleWorld 1
        AnalysisTypeArchitecture = .returned run ∧
      run.err = some err ∧ err.Unwrap = some (.new "ai error") ∧
      run.world.analyses.rows = [] := by
  obtain ⟨run, err, hrun, -, herr, -, hun, han, -⟩ :=
    analyze_ai_failure_wrapped exampleAIDownEnv exampleWorld 1 AnalysisTypeArchitecture
      (insertedRow 1 10 exampleRepoV1) none (.new "ai error") rfl rfl
  exact ⟨run, err, hrun, herr, hun, by rw [han]; rfl⟩

/-- C10. For an existing repository and a successful AI response, when all store writes
succeed `AnalyzeRepository` returns with a nil error the Analysis it persisted: exactly
one new Analysis row, with status completed, the repository id and the id generated by
the store; and it appends as many Feature, Technology and Suggestion rows as the response
has features, technologies and suggestions, each tagged with the repository id. -/
theorem analyze_success_persists (env : AnalyzeEnv) (w : World) (repoID : Int)
    (analysisType : AnalysisType) (repo : Repository) (response : RepositoryAnalysisResponse)
    (hrepo : RepositoryStore.GetByID w.repositories env.getRepoFault repoID = (some repo, none))
    (hai : env.aiAnalyzeRepository (buildPrompt repo) = (some response, none))
    (hanalysis : env.analysisFault = none) (hfeatures : env.featuresFault = none)
    (htechs : env.technologiesFault = none) (hsuggs : ∀ k, env.suggestionFault k = none) :
    ∃ (run : AnalyzeRun) (analysis : Analysis) (fs : List Feature) (ts : List Technology)
      (ss : List Suggestion),
      AIAnalysisServiceImpl.AnalyzeRepository env w repoID analysisType = .returned run ∧
      run.err = none ∧ run.analysis = some analysis ∧
      run.world.analyses.rows = w.analyses.rows ++ [analysis] ∧
      analysis.ID = w.analyses.nextID ∧
      analysis.Status = AnalysisStatusCompleted ∧ analysis.RepositoryID = repoID ∧
      run.world.features.rows = w.features.rows ++ fs ∧
      fs.length = response.Features.length ∧ (∀ f ∈ fs, f.RepositoryID = repoID) ∧
      run.world.technologies.rows = w.technologies.rows ++ ts ∧
      ts.length = response.Technologies.length ∧ (∀ t ∈ ts, t.RepositoryID = repoID) ∧
      run.world.suggestions.rows = w.suggestions.rows ++ ss ∧
      ss.length = response.Suggestions.length ∧ (∀ s ∈ ss, s.RepositoryID = repoID) := by
  have h : RepositoryStore.GetByID (w.emit (.repoGetByID repoID)).repositories
      env.getRepoFault repoID = (some repo, none) := hrepo
  let a0 : Analysis :=
    { RepositoryID := repoID, AnalysisType := analysisType, Status := AnalysisStatusCompleted,
      Result := SQLNullString "", Summary := SQLNullString response.Architecture,
      Score := SQLNullInt32 response.Quality.Score, CreatedAt := env.clock 0 }
  let a : Analysis := { a0 with ID := w.analyses.nextID, CreatedAt := env.analysisNow }
  let w0 : World :=
    World.emit
      { (w.emit (.repoGetByID repoID)).emit (.aiAnalyzeRepository (buildPrompt repo)) with
        analyses := { rows := w.analyses.rows ++ [a], nextID := w.analyses.nextID + 1 } }
      (.analysisCreate a0 none)
  let feats := toDomainFeatures repoID env.clock 1 response.Features
  let techs := toDomainTechnologies repoID env.clock (1 + response.Features.length)
    response.Technologies
  let suggs := toDomainSuggestions repoID env.clock
    (1 + response.Features.length + response.Technologies.length) response.Suggestions
  let w1 := saveFeatures env feats w0
  let w2 := saveTechnologies env techs w1
  obtain ⟨ss, hss, hssmap⟩ := saveSuggestions_rows env hsuggs suggs 0 w2
  obtain ⟨-, hA3, hF3, hT3⟩ := saveSuggestions_frame env suggs 0 w2
  obtain ⟨-, hA2, hF2, hS2⟩ := saveTechnologies_frame env techs w1
  obtain ⟨-, hA1, hT1, hS1⟩ := saveFeatures_frame env feats w0
  have hfs := all_eq_of_map_const _ repoID _ _
    ((copyFeatureRows_repo feats w.features.nextID).trans
      (toDomainFeatures_repo repoID env.clock response.Features 1))
  have hts := all_eq_of_map_const _ repoID _ _
    ((copyTechnologyRows_repo techs w.technologies.nextID).trans
      (toDomainTechnologies_repo repoID env.clock response.Technologies _))
  have hsss := all_eq_of_map_const _ repoID _ _
    (hssmap.trans (toDomainSuggestions_repo repoID env.clock response.Suggestions _))
  refine ⟨AnalyzeRun.mk (some a) none (saveSuggestions env 0 suggs w2), a,
    copyFeatureRows w.features.nextID feats, copyTechnologyRows w.technologies.nextID techs,
    ss, ?_, rfl, rfl, ?_, rfl, rfl, rfl, ?_, hfs.1, hfs.2, ?_, hts.1, hts.2, ?_, hsss.1, hsss.2⟩
  · simp only [AIAnalysisServiceImpl.AnalyzeRepository, h, hai,
      RepositoryAnalysisResponse.ToDomain, AnalysisRepository.Create, hanalysis]
    rfl
  · show (saveSuggestions env 0 suggs w2).analyses.rows = _
    rw [hA3, hA2, hA1]
    rfl
  · show (saveSuggestions env 0 suggs w2).features.rows = _
    rw [hF3, hF2]
    exact saveFeatures_rows env feats w0 hfeatures
  · show (saveSuggestions env 0 suggs w2).technologies.rows = _
    rw [hT3]
    have := saveTechnologies_rows env techs w1 htechs
    rw [hT1] at this
    exact this
  · show (saveSuggestions env 0 suggs w2).suggestions.rows = _
    rw [hss, hS2, hS1]
    rfl

theorem analyze_success_persists_witness :
    (∃ run : AnalyzeRun,
      AIAnalysisServiceImpl.AnalyzeRepository exampleAnalyzeEnv exampleWorld 1
        AnalysisTypeFeatures = .returned run ∧ run.err = none) ∧
    (match AIAnalysisServiceImpl.AnalyzeRepository exampleAnalyzeEnv exampleWorld 1
        AnalysisTypeFeatures with
      | .returned run =>
        (run.analysis.map (fun a => a.ID), run.world.analyses.rows.length,
          run.world.features.rows.length, run.world.technologies.rows.length,
          run.world.suggestions.rows.length)
      | .panic _ => (none, 0, 0, 0, 0)) = (some 1, 1, 2, 1, 0) := by
  constructor
  · obtain ⟨run, -, -, -, -, hrun, herr, -⟩ :=
      analyze_success_persists exampleAnalyzeEnv exampleWorld 1 AnalysisTypeFeatures
        (insertedRow 1 10 exampleRepoV1) exampleResponse rfl rfl rfl rfl rfl (fun _ => rfl)
    exact ⟨run, hrun, herr⟩
  · rfl

theorem SQLNullString_absentIffEmpty (s : GoString) : AbsentIffEmpty (SQLNullString s) s := by
  unfold AbsentIffEmpty SQLNullString
  by_cases h : s = "" <;> simp [h]

theorem toDomainFeatures_fields (repoID : Int) (clock : Nat → Instant)
    (l : List ResponseFeature) :
    ∀ n, (toDomainFeatures repoID clock n l).map
        (fun f => (f.RepositoryID, f.Name, f.Confidence))
      = l.map (fun f => (repoID, f.Name, f.Confidence)) := by
  induction l with
  | nil => intro n; rfl
  | cons a l ih => intro n; simp [toDomainFeatures, ih]

theorem toDomainTechnologies_fields (repoID : Int) (clock : Nat → Instant)
    (l : List ResponseTechnology) :
    ∀ n, (toDomainTechnologies repoID clock n l).map
        (fun t => (t.RepositoryID, t.Name, t.Type_))
      = l.map (fun t => (repoID, t.Name, t.Type_)) := by
  induction l with
  | nil => intro n; rfl
  | cons a l ih => intro n; simp [toDomainTechnologies, ih]

theorem toDomainSuggestions_fields (repoID : Int) (clock : Nat → Instant)
    (l : List ResponseSuggestion) :
    ∀ n, (toDomainSuggestions repoID clock n l).map
        (fun s => (s.RepositoryID, s.SuggestionType, s.Title, s.Description, s.Priority))
      = l.map (fun s => (repoID, s.Type_, s.Title, s.Description, s.Priority)) := by
  induction l with
  | nil => intro n; rfl
  | cons a l ih => intro n; simp [toDomainSuggestions, ih]

theorem toDomainFeatures_optional (repoID : Int) (clock : Nat → Instant)
    (l : List ResponseFeature) :
    ∀ n, List.Forall₂
      (fun (f : Feature) (rf : ResponseFeature) =>
        AbsentIffEmpty f.Description rf.Description ∧ AbsentIffEmpty f.Category rf.Category)
      (toDomainFeatures repoID clock n l) l := by
  induction l with
  | nil => intro n; exact List.Forall₂.nil
  | cons a l ih =>
    intro n
    exact List.Forall₂.cons
      ⟨SQLNullString_absentIffEmpty _, SQLNullString_absentIffEmpty _⟩ (ih (n + 1))

theorem toDomainTechnologies_optional (repoID : Int) (clock : Nat → Instant)
    (l : List ResponseTechnology) :
    ∀ n, List.Forall₂
      (fun (t : Technology) (rt : ResponseTechnology) => AbsentIffEmpty t.Version rt.Version)
      (toDomainTechnologies repoID clock n l) l := by
  induction l with
  | nil => intro n; exact List.Forall₂.nil
  | cons a l ih =>
    intro n
    exact List.Forall₂.cons (SQLNullString_absentIffEmpty _) (ih (n + 1))

theorem int32_of_inRange (q : Int) (hlo : -2 ^ 31 ≤ q) (hhi : q < 2 ^ 31) : int32 q = q := by
  unfold int32
  rw [Int.emod_eq_of_lt (by omega) (by omega)]
  omega

/-- C15. Empty strings map to absent in the optional text fields: in the output of
`ToDomain` the Analysis summary, each Feature's description and category and each
Technology's version are absent (`Valid = false`) exactly when the response string is
empty, and otherwise present with the response string unchanged; so is `SQLNullString s`
for every `s`. -/
theorem toDomain_empty_strings_absent (r : RepositoryAnalysisResponse) (repoID : Int)
    (clock : Nat → Instant) :
    AbsentIffEmpty (r.ToDomain repoID clock).1.Summary r.Architecture ∧
    List.Forall₂
      (fun (f : Feature) (rf : ResponseFeature) =>
        AbsentIffEmpty f.Description rf.Description ∧ AbsentIffEmpty f.Category rf.Category)
      (r.ToDomain repoID clock).2.1 r.Features ∧
    List.Forall₂
      (fun (t : Technology) (rt : ResponseTechnology) => AbsentIffEmpty t.Version rt.Version)
      (r.ToDomain repoID clock).2.2.1 r.Technologies ∧
    ∀ s : GoString, ((SQLNullString s).Valid = false ↔ s = "") :=
  ⟨SQLNullString_absentIffEmpty _, toDomainFeatures_optional _ _ _ _,
    toDomainTechnologies_optional _ _ _ _, fun s => (SQLNullString_absentIffEmpty s).1⟩

/-- C16. The quality score is always present: for a response whose quality score `q` lies
in the signed 32-bit range (a response that carries no score decodes to `q = 0`), the
Analysis produced by `ToDomain` has `Score` valid with value `q`. -/
theorem toDomain_score_present (r : RepositoryAnalysisResponse) (repoID : Int)
    (clock : Nat → Instant) (hlo : -2 ^ 31 ≤ r.Quality.Score) (hhi : r.Quality.Score < 2 ^ 31) :
    (r.ToDomain repoID clock).1.Score = { Int32 := r.Quality.Score, Valid := true } := by
  show SQLNullInt32 r.Quality.Score = _
  unfold SQLNullInt32
  rw [int32_of_inRange _ hlo hhi]

theorem toDomain_score_present_witness :
    exampleSuggestionResponse.Quality.Score = 0 ∧
    (exampleSuggestionResponse.ToDomain 1 (fun n => 300 + n)).1.Score
      = { Int32 := 0, Valid := true } :=
  ⟨rfl, toDomain_score_present exampleSuggestionResponse 1 (fun n => 300 + n)
    (by decide) (by decide)⟩

/-- C17. `ToDomain` normalises a response into one Analysis and three lists that preserve
it: the lists have the lengths of the response's features, technologies and suggestions
and, position by position, carry the repository id together with the input's
name/confidence (feature), name/type (technology) and type/title/description/priority
(suggestion); the Analysis carries the repository id too. -/
theorem toDomain_preserves_response (r : RepositoryAnalysisResponse) (repoID : Int)
    (clock : Nat → Instant) :
    (r.ToDomain repoID clock).1.RepositoryID = repoID ∧
    (r.ToDomain repoID clock).2.1.length = r.Features.length ∧
    (r.ToDomain repoID clock).2.2.1.length = r.Technologies.length ∧
    (r.ToDomain repoID clock).2.2.2.length = r.Suggestions.length ∧
    (r.ToDomain repoID clock).2.1.map (fun f => (f.RepositoryID, f.Name, f.Confidence))
      = r.Features.map (fun f => (repoID, f.Name, f.Confidence)) ∧
    (r.ToDomain repoID clock).2.2.1.map (fun t => (t.RepositoryID, t.Name, t.Type_))
      = r.Technologies.map (fun t => (repoID, t.Name, t.Type_)) ∧
    (r.ToDomain repoID clock).2.2.2.map
        (fun s => (s.RepositoryID, s.SuggestionType, s.Title, s.Description, s.Priority))
      = r.Suggestions.map (fun s => (repoID, s.Type_, s.Title, s.Description, s.Priority)) := by
  have hf := toDomainFeatures_fields repoID clock r.Features 1
  have ht := toDomainTechnologies_fields repoID clock r.Technologies (1 + r.Features.length)
  have hs := toDomainSuggestions_fields repoID clock r.Suggestions
    (1 + r.Features.length + r.Technologies.length)
  refine ⟨rfl, ?_, ?_, ?_, hf, ht, hs⟩
  · simpa using congrArg List.length hf
  · simpa using congrArg List.length ht
  · simpa using congrArg List.length hs

theorem analysisCreates_append (t1 t2 : List Event) :
    analysisCreates (t1 ++ t2) = analysisCreates t1 ++ analysisCreates t2 := by
  simp [analysisCreates, List.filterMap_append]

theorem featureBulkCreates_append (t1 t2 : List Event) :
    featureBulkCreates (t1 ++ t2) = featureBulkCreates t1 ++ featureBulkCreates t2 := by
  simp [featureBulkCreates, List.filterMap_append]

theorem technologyBulkCreates_append (t1 t2 : List Event) :
    technologyBulkCreates (t1 ++ t2) = technologyBulkCreates t1 ++ technologyBulkCreates t2 := by
  simp [technologyBulkCreates, List.filterMap_append]

theorem suggestionCreates_append (t1 t2 : List Event) :
    suggestionCreates (t1 ++ t2) = suggestionCreates t1 ++ suggestionCreates t2 := by
  simp [suggestionCreates, List.filterMap_append]

theorem logIfErr_trace (w : World) (msg : GoString) (err : Option GoError) :
    ∃ logs : List Event, (w.logIfErr msg err).trace = w.trace ++ logs ∧
      analysisCreates logs = [] ∧ featureBulkCreates logs = [] ∧
      technologyBulkCreates logs = [] ∧ suggestionCreates logs = [] := by
  cases err with
  | none => exact ⟨[], by simp [World.logIfErr], rfl, rfl, rfl, rfl⟩
  | some e => exact ⟨[.logError msg e], by simp [World.logIfErr, World.emit], rfl, rfl, rfl, rfl⟩

theorem saveFeatures_trace (env : AnalyzeEnv) (features : List Feature) (w : World) :
    ∃ evs : List Event, (saveFeatures env features w).trace = w.trace ++ evs ∧
      analysisCreates evs = [] ∧
      featureBulkCreates evs
        = (if features.length > 0 then [(features, env.featuresFault)] else []) ∧
      technologyBulkCreates evs = [] ∧ suggestionCreates evs = [] := by
  unfold saveFeatures
  by_cases hlen : features.length > 0
  · have hne : ¬ features.length = 0 := by omega
    have herr : (FeatureRepository.BulkCreate w.features env.featuresFault features).2
        = env.featuresFault := by
      unfold FeatureRepository.BulkCreate
      cases env.featuresFault <;> simp [hne]
    obtain ⟨logs, hlogs, h1, h2, h3, h4⟩ := logIfErr_trace
      (({ w with features :=
          (FeatureRepository.BulkCreate w.features env.featuresFault features).1 }).emit
        (.featureBulkCreate features
          (FeatureRepository.BulkCreate w.features env.featuresFault features).2))
      "Failed to save features"
      (FeatureRepository.BulkCreate w.features env.featuresFault features).2
    refine ⟨[.featureBulkCreate features env.featuresFault] ++ logs, ?_, ?_, ?_, ?_, ?_⟩
    · simp only [hlen, if_true]
      rw [hlogs, herr]
      simp [World.emit]
    · rw [analysisCreates_append, h1]; rfl
    · rw [featureBulkCreates_append, h2]; simp [hlen, featureBulkCreates]
    · rw [technologyBulkCreates_append, h3]; rfl
    · rw [suggestionCreates_append, h4]; rfl
  · exact ⟨[], by simp [hlen], rfl, by simp [hlen, featureBulkCreates], rfl, rfl⟩

theorem saveTechnologies_trace (env : AnalyzeEnv) (techs : List Technology) (w : World) :
    ∃ evs : List Event, (saveTechnologies env techs w).trace = w.trace ++ evs ∧
      analysisCreates evs = [] ∧ featureBulkCreates evs = [] ∧
      technologyBulkCreates evs
        = (if techs.length > 0 then [(techs, env.technologiesFault)] else []) ∧
      suggestionCreates evs = [] := by
  unfold saveTechnologies
  by_cases hlen : techs.length > 0
  · have hne : ¬ techs.length = 0 := by omega
    have herr : (TechnologyRepository.BulkCreate w.technologies env.technologiesFault techs).2
        = env.technologiesFault := by
      unfold TechnologyRepository.BulkCreate
      cases env.technologiesFault <;> simp [hne]
    obtain ⟨logs, hlogs, h1, h2, h3, h4⟩ := logIfErr_trace
      (({ w with technologies :=
          (TechnologyRepository.BulkCreate w.technologies env.technologiesFault techs).1 }).emit
        (.technologyBulkCreate techs
          (TechnologyRepository.BulkCreate w.technologies env.technologiesFault techs).2))
      "Failed to save technologies"
      (TechnologyRepository.BulkCreate w.technologies env.technologiesFault techs).2
    refine ⟨[.technologyBulkCreate techs env.technologiesFault] ++ logs, ?_, ?_, ?_, ?_, ?_⟩
    · simp only [hlen, if_true]
      rw [hlogs, herr]
      simp [World.emit]
    · rw [analysisCreates_append, h1]; rfl
    · rw [featureBulkCreates_append, h2]; rfl
    · rw [technologyBulkCreates_append, h3]; simp [hlen, technologyBulkCreates]
    · rw [suggestionCreates_append, h4]; rfl
  · exact ⟨[], by simp [hlen], rfl, rfl, by simp [hlen, technologyBulkCreates], rfl⟩

theorem saveSuggestions_trace (env : AnalyzeEnv) (suggestions : List Suggestion) :
    ∀ (k : Nat) (w : World), ∃ (evs : List Event) (errs : List (Option GoError)),
      (saveSuggestions env k suggestions w).trace = w.trace ++ evs ∧
      analysisCreates evs = [] ∧ featureBulkCreates evs = [] ∧
      technologyBulkCreates evs = [] ∧
      errs.length = suggestions.length ∧
      suggestionCreates evs = suggestions.zip errs := by
  induction suggestions with
  | nil => intro k w; exact ⟨[], [], by simp [saveSuggestions], rfl, rfl, rfl, rfl, rfl⟩
  | cons s rest ih =>
    intro k w
    obtain ⟨logs, hlogs, h1, h2, h3, h4⟩ := logIfErr_trace
      (({ w with suggestions := (SuggestionRepository.Create w.suggestions
          (env.suggestionFault k) (env.suggestionNow k) s).1 }).emit
        (.suggestionCreate s (SuggestionRepository.Create w.suggestions
          (env.suggestionFault k) (env.suggestionNow k) s).2.2))
      "Failed to save suggestion"
      (SuggestionRepository.Create w.suggestions
        (env.suggestionFault k) (env.suggestionNow k) s).2.2
    obtain ⟨evs, errs, htrace, g1, g2, g3, glen, g4⟩ := ih (k + 1)
      ((({ w with suggestions := (SuggestionRepository.Create w.suggestions
          (env.suggestionFault k) (env.suggestionNow k) s).1 }).emit
        (.suggestionCreate s (SuggestionRepository.Create w.suggestions
          (env.suggestionFault k) (env.suggestionNow k) s).2.2)).logIfErr
        "Failed to save suggestion" (SuggestionRepository.Create w.suggestions
          (env.suggestionFault k) (env.suggestionNow k) s).2.2)
    refine ⟨[.suggestionCreate s (SuggestionRepository.Create w.suggestions
        (env.suggestionFault k) (env.suggestionNow k) s).2.2] ++ logs ++ evs,
      (SuggestionRepository.Create w.suggestions
        (env.suggestionFault k) (env.suggestionNow k) s).2.2 :: errs, ?_, ?_, ?_, ?_, ?_, ?_⟩
    · simp only [saveSuggestions]
      rw [htrace, hlogs]
      simp [World.emit]
    · simp only [analysisCreates_append, h1, g1]; rfl
    · simp only [featureBulkCreates_append, h2, g2]; rfl
    · simp only [technologyBulkCreates_append, h3, g3]; rfl
    · simp [glen]
    · simp only [suggestionCreates_append, h4, g4, List.zip_cons_cons]
      simp [suggestionCreates]

theorem analyze_ok_cases (env : AnalyzeEnv) (w : World) (repoID : Int)
    (analysisType : AnalysisType) (run : AnalyzeRun)
    (hrun : AIAnalysisServiceImpl.AnalyzeRepository env w repoID analysisType = .returned run)
    (hok : run.err = none) :
    ∃ (repo : Repository) (response : RepositoryAnalysisResponse),
      RepositoryStore.GetByID w.repositories env.getRepoFault repoID = (some repo, none) ∧
      env.aiAnalyzeRepository (buildPrompt repo) = (some response, none) ∧
      env.analysisFault = none := by
  have hemit : (w.emit (.repoGetByID repoID)).repositories = w.repositories := rfl
  unfold AIAnalysisServiceImpl.AnalyzeRepository at hrun
  simp only [hemit] at hrun
  rcases hg : RepositoryStore.GetByID w.repositories env.getRepoFault repoID with
    ⟨_ | repo, _ | e⟩
  · simp only [hg, GoResult.returned.injEq] at hrun
    subst hrun
    cases hok
  · simp only [hg, GoResult.returned.injEq] at hrun
    subst hrun
    cases hok
  · rcases ha : env.aiAnalyzeRepository (buildPrompt repo) with ⟨_ | response, _ | e⟩
    · simp [hg, ha] at hrun
    · simp only [hg, ha, GoResult.returned.injEq] at hrun
      subst hrun
      cases hok
    · cases hf : env.analysisFault with
      | none => exact ⟨repo, response, rfl, ha, rfl⟩
      | some e =>
        simp only [hg, ha, hf, AnalysisRepository.Create, GoResult.returned.injEq] at hrun
        subst hrun
        cases hok
    · simp only [hg, ha, GoResult.returned.injEq] at hrun
      subst hrun
      cases hok
  · simp only [hg, GoResult.returned.injEq] at hrun
    subst hrun
    cases hok

theorem analyze_created_run (env : AnalyzeEnv) (w : World) (repoID : Int)
    (analysisType : AnalysisType) (repo : Repository) (response : RepositoryAnalysisResponse)
    (hrepo : RepositoryStore.GetByID w.repositories env.getRepoFault repoID = (some repo, none))
    (hai : env.aiAnalyzeRepository (buildPrompt repo) = (some response, none))
    (hanalysis : env.analysisFault = none) :
    ∃ (run : AnalyzeRun) (evs : List Event) (errs : List (Option GoError)),
      AIAnalysisServiceImpl.AnalyzeRepository env w repoID analysisType = .returned run ∧
      run.err = none ∧
      run.analysis = some
        { (response.ToDomain repoID env.clock).1 with
          AnalysisType := analysisType, ID := w.analyses.nextID, CreatedAt := env.analysisNow } ∧
      run.world.analyses.rows = w.analyses.rows ++
        [{ (response.ToDomain repoID env.clock).1 with
          AnalysisType := analysisType, ID := w.analyses.nextID, CreatedAt := env.analysisNow }] ∧
      run.world.trace = w.trace ++
        [.repoGetByID repoID, .aiAnalyzeRepository (buildPrompt repo),
          .analysisCreate
            { (response.ToDomain repoID env.clock).1 with AnalysisType := analysisType } none]
        ++ evs ∧
      analysisCreates evs = [] ∧
      featureBulkCreates evs
        = (if (response.ToDomain repoID env.clock).2.1.length > 0
            then [((response.ToDomain repoID env.clock).2.1, env.featuresFault)] else []) ∧
      technologyBulkCreates evs
        = (if (response.ToDomain repoID env.clock).2.2.1.length > 0
            then [((response.ToDomain repoID env.clock).2.2.1, env.technologiesFault)] else []) ∧
      errs.length = (response.ToDomain repoID env.clock).2.2.2.length ∧
      suggestionCreates evs = (response.ToDomain repoID env.clock).2.2.2.zip errs := by
  have h : RepositoryStore.GetByID (w.emit (.repoGetByID repoID)).repositories
      env.getRepoFault repoID = (some repo, none) := hrepo
  let a0 : Analysis :=
    { (response.ToDomain repoID env.clock).1 with AnalysisType := analysisType }
  let a : Analysis := { a0 with ID := w.analyses.nextID, CreatedAt := env.analysisNow }
  let w0 : World :=
    World.emit
      { (w.emit (.repoGetByID repoID)).emit (.aiAnalyzeRepository (buildPrompt repo)) with
        analyses := { rows := w.analyses.rows ++ [a], nextID := w.analyses.nextID + 1 } }
      (.analysisCreate a0 none)
  let feats := (response.ToDomain repoID env.clock).2.1
  let techs := (response.ToDomain repoID env.clock).2.2.1
  let suggs := (response.ToDomain repoID env.clock).2.2.2
  let w1 := saveFeatures env feats w0
  let w2 := saveTechnologies env techs w1
  obtain ⟨ev1, ht1, a1, f1, t1, s1⟩ := saveFeatures_trace env feats w0
  obtain ⟨ev2, ht2, a2, f2, t2, s2⟩ := saveTechnologies_trace env techs w1
  obtain ⟨ev3, errs, ht3, a3, f3, t3, hlen, s3⟩ := saveSuggestions_trace env suggs 0 w2
  obtain ⟨-, hA3, -, -⟩ := saveSuggestions_frame env suggs 0 w2
  obtain ⟨-, hA2, -, -⟩ := saveTechnologies_frame env techs w1
  obtain ⟨-, hA1, -, -⟩ := saveFeatures_frame env feats w0
  refine ⟨AnalyzeRun.mk (some a) none (saveSuggestions env 0 suggs w2), ev1 ++ ev2 ++ ev3,
    errs, ?_, rfl, rfl, ?_, ?_, ?_, ?_, ?_, hlen, ?_⟩
  · simp only [AIAnalysisServiceImpl.AnalyzeRepository, h, hai, AnalysisRepository.Create,
      hanalysis]
    rfl
  · show (saveSuggestions env 0 suggs w2).analyses.rows = _
    rw [hA3, hA2, hA1]
    rfl
  · show (saveSuggestions env 0 suggs w2).trace = _
    rw [ht3, ht2, ht1]
    simp [w0, World.emit, a0]
  · simp only [analysisCreates_append, a1, a2, a3]; rfl
  · simp only [featureBulkCreates_append, f1, f2, f3]; simp [feats]
  · simp only [technologyBulkCreates_append, t1, t2, t3]; simp [techs]
  · simp only [suggestionCreates_append, s1, s2, s3]; simp [suggs]

/-- C11. In every successful run the Analysis handed to the analysis store and the
Analysis returned (which is the row persisted) both carry the analysis type passed by the
caller, whatever it is, although the response mapping assigns `architecture`. -/
theorem analyze_type_override (env : AnalyzeEnv) (w : World) (repoID : Int)
    (analysisType : AnalysisType) (run : AnalyzeRun)
    (hrun : AIAnalysisServiceImpl.AnalyzeRepository env w repoID analysisType = .returned run)
    (hok : run.err = none) :
    (∃ handed returned : Analysis,
      analysisCreates run.world.trace = analysisCreates w.trace ++ [(handed, none)] ∧
      handed.AnalysisType = analysisType ∧
      run.analysis = some returned ∧ returned.AnalysisType = analysisType ∧
      run.world.analyses.rows = w.analyses.rows ++ [returned]) ∧
    ∀ (response : RepositoryAnalysisResponse) (clock : Nat → Instant),
      (response.ToDomain repoID clock).1.AnalysisType = AnalysisTypeArchitecture := by
  obtain ⟨repo, response, hrepo, hai, hanalysis⟩ :=
    analyze_ok_cases env w repoID analysisType run hrun hok
  obtain ⟨run2, evs, errs, hrun2, -, hret, hrows, htrace, hcreates, -⟩ :=
    analyze_created_run env w repoID analysisType repo response hrepo hai hanalysis
  have heq : run = run2 := by
    rw [hrun] at hrun2
    exact GoResult.returned.inj hrun2
  subst heq
  refine ⟨⟨{ (response.ToDomain repoID env.clock).1 with AnalysisType := analysisType },
    _, ?_, rfl, hret, rfl, hrows⟩, fun _ _ => rfl⟩
  rw [htrace, analysisCreates_append, analysisCreates_append, hcreates]
  simp [analysisCreates]

theorem analyze_type_override_witness :
    ∃ (run : AnalyzeRun) (returned : Analysis),
      AIAnalysisServiceImpl.AnalyzeRepository exampleAnalyzeEnv exampleWorld 1
        AnalysisTypeQuality = .returned run ∧
      run.err = none ∧ run.analysis = some returned ∧
      returned.AnalysisType = AnalysisTypeQuality := by
  obtain ⟨⟨-, returned, -, -, hret, htype, -⟩, -⟩ :=
    analyze_type_override exampleAnalyzeEnv exampleWorld 1 AnalysisTypeQuality
      (match AIAnalysisServiceImpl.AnalyzeRepository exampleAnalyzeEnv exampleWorld 1
          AnalysisTypeQuality with
        | .returned run => run
        | .panic _ => AnalyzeRun.mk none none {})
      rfl rfl
  exact ⟨_, returned, rfl, rfl, hret, htype⟩

/-- C13. Suggestions are persisted one at a time and independently: whatever inserts
fail, the suggestion store's `Create` is called once per suggestion of the response, in
order, the `i`-th call carrying the repository id and the type, title, description and
priority of the `i`-th suggestion, and the run returns the persisted Analysis, which does
not depend on those failures, with a nil error. -/
theorem analyze_suggestions_independent (env : AnalyzeEnv) (w : World) (repoID : Int)
    (analysisType : AnalysisType) (repo : Repository) (response : RepositoryAnalysisResponse)
    (hrepo : RepositoryStore.GetByID w.repositories env.getRepoFault repoID = (some repo, none))
    (hai : env.aiAnalyzeRepository (buildPrompt repo) = (some response, none))
    (hanalysis : env.analysisFault = none) :
    ∃ (run : AnalyzeRun) (calls : List (Suggestion × Option GoError)),
      AIAnalysisServiceImpl.AnalyzeRepository env w repoID analysisType = .returned run ∧
      run.err = none ∧
      run.analysis = some
        { (response.ToDomain repoID env.clock).1 with
          AnalysisType := analysisType, ID := w.analyses.nextID, CreatedAt := env.analysisNow } ∧
      suggestionCreates run.world.trace = suggestionCreates w.trace ++ calls ∧
      calls.length = response.Suggestions.length ∧
      calls.map (fun c =>
          (c.1.RepositoryID, c.1.SuggestionType, c.1.Title, c.1.Description, c.1.Priority))
        = response.Suggestions.map (fun s =>
          (repoID, s.Type_, s.Title, s.Description, s.Priority)) := by
  obtain ⟨run, evs, errs, hrun, herr, hret, -, htrace, -, -, -, hlen, hs⟩ :=
    analyze_created_run env w repoID analysisType repo response hrepo hai hanalysis
  have hfields : (response.ToDomain repoID env.clock).2.2.2.map (fun s =>
        (s.RepositoryID, s.SuggestionType, s.Title, s.Description, s.Priority))
      = response.Suggestions.map (fun s =>
        (repoID, s.Type_, s.Title, s.Description, s.Priority)) :=
    toDomainSuggestions_fields repoID env.clock response.Suggestions
      (1 + response.Features.length + response.Technologies.length)
  have hfst : ((response.ToDomain repoID env.clock).2.2.2.zip errs).map Prod.fst
      = (response.ToDomain repoID env.clock).2.2.2 :=
    List.map_fst_zip _ _ (le_of_eq hlen.symm)
  have hmap : ((response.ToDomain repoID env.clock).2.2.2.zip errs).map (fun c =>
        (c.1.RepositoryID, c.1.SuggestionType, c.1.Title, c.1.Description, c.1.Priority))
      = response.Suggestions.map (fun s =>
        (repoID, s.Type_, s.Title, s.Description, s.Priority)) := by
    rw [← hfields]
    conv_rhs => rw [← hfst]
    rw [List.map_map]
    rfl
  refine ⟨run, (response.ToDomain repoID env.clock).2.2.2.zip errs, hrun, herr, hret, ?_,
    ?_, hmap⟩
  · rw [htrace, suggestionCreates_append, suggestionCreates_append, hs]
    simp [suggestionCreates]
  · simpa using congrArg List.length hmap

theorem analyze_suggestions_independent_witness :
    (∃ run : AnalyzeRun,
      AIAnalysisServiceImpl.AnalyzeRepository exampleDegradedEnv exampleWorld 1
        AnalysisTypeSuggestions = .returned run ∧ run.err = none) ∧
    (match AIAnalysisServiceImpl.AnalyzeRepository exampleDegradedEnv exampleWorld 1
        AnalysisTypeSuggestions with
      | .returned run => (suggestionCreates run.world.trace).map (fun c => (c.1.Title, c.2))
      | .panic _ => [])
      = [("Split handler", some (.new "insert failed")), ("Add tests", none)] := by
  constructor
  · obtain ⟨run, -, hrun, herr, -⟩ :=
      analyze_suggestions_independent exampleDegradedEnv exampleWorld 1
        AnalysisTypeSuggestions (insertedRow 1 10 exampleRepoV1) exampleSuggestionResponse
        rfl rfl rfl
    exact ⟨run, hrun, herr⟩
  · rfl

theorem analyze_soft_steps_counterexample :
    exampleAnalysisStoreDownEnv.aiAnalyzeRepository
        (buildPrompt (insertedRow 1 10 exampleRepoV1)) = (some exampleResponse, none) ∧
    ∃ run : AnalyzeRun,
      AIAnalysisServiceImpl.AnalyzeRepository exampleAnalysisStoreDownEnv exampleWorld 1
        AnalysisTypeArchitecture = .returned run ∧
      run.analysis = none ∧
      run.err = some (.wrapf "failed to save analysis: "
        (.wrapf "failed to create analysis: " (.new "db down"))) :=
  ⟨rfl, _, rfl, rfl, rfl⟩

/-- A run that returns has a nil error exactly when the repository was found, the AI
gateway call succeeded and the Analysis row was persisted; it then carries an Analysis. -/
theorem analyze_error_iff_of_returned (env : AnalyzeEnv) (w : World) (repoID : Int)
    (analysisType : AnalysisType) (run : AnalyzeRun)
    (hrun : AIAnalysisServiceImpl.AnalyzeRepository env w repoID analysisType = .returned run) :
    (run.err = none ↔
      ∃ (repo : Repository) (response : RepositoryAnalysisResponse),
        RepositoryStore.GetByID w.repositories env.getRepoFault repoID = (some repo, none) ∧
        env.aiAnalyzeRepository (buildPrompt repo) = (some response, none) ∧
        env.analysisFault = none) ∧
    (run.err = none → run.analysis ≠ none) := by
  have hback : (∃ (repo : Repository) (response : RepositoryAnalysisResponse),
        RepositoryStore.GetByID w.repositories env.getRepoFault repoID = (some repo, none) ∧
        env.aiAnalyzeRepository (buildPrompt repo) = (some response, none) ∧
        env.analysisFault = none) → run.err = none ∧ run.analysis ≠ none := by
    rintro ⟨repo, response, hrepo, hai, hanalysis⟩
    obtain ⟨run2, -, -, hrun2, herr, hret, -⟩ :=
      analyze_created_run env w repoID analysisType repo response hrepo hai hanalysis
    have heq : run = run2 := by
      rw [hrun] at hrun2
      exact GoResult.returned.inj hrun2
    subst heq
    exact ⟨herr, by rw [hret]; simp⟩
  have hforth := analyze_ok_cases env w repoID analysisType run hrun
  exact ⟨⟨hforth, fun h => (hback h).1⟩, fun hok => (hback (hforth hok)).2⟩

theorem analyze_lookup_error_run (env : AnalyzeEnv) (w : World) (repoID : Int)
    (analysisType : AnalysisType) (found : Option Repository) (e : GoError)
    (hrepo : RepositoryStore.GetByID w.repositories env.getRepoFault repoID = (found, some e)) :
    AIAnalysisServiceImpl.AnalyzeRepository env w repoID analysisType
      = .returned (AnalyzeRun.mk none (some (.wrapf "failed to get repository: " e))
          (w.emit (.repoGetByID repoID))) := by
  have h : RepositoryStore.GetByID (w.emit (.repoGetByID repoID)).repositories
      env.getRepoFault repoID = (found, some e) := hrepo
  simp only [AIAnalysisServiceImpl.AnalyzeRepository, h]

theorem analyze_lookup_none_run (env : AnalyzeEnv) (w : World) (repoID : Int)
    (analysisType : AnalysisType)
    (hrepo : RepositoryStore.GetByID w.repositories env.getRepoFault repoID = (none, none)) :
    AIAnalysisServiceImpl.AnalyzeRepository env w repoID analysisType
      = .returned (AnalyzeRun.mk none (some (.new "repository not found"))
          (w.emit (.repoGetByID repoID))) := by
  have h : RepositoryStore.GetByID (w.emit (.repoGetByID repoID)).repositories
      env.getRepoFault repoID = (none, none) := hrepo
  simp only [AIAnalysisServiceImpl.AnalyzeRepository, h]

theorem analyze_ai_error_run (env : AnalyzeEnv) (w : World) (repoID : Int)
    (analysisType : AnalysisType) (repo : Repository)
    (response : Option RepositoryAnalysisResponse) (e : GoError)
    (hrepo : RepositoryStore.GetByID w.repositories env.getRepoFault repoID = (some repo, none))
    (hai : env.aiAnalyzeRepository (buildPrompt repo) = (response, some e)) :
    AIAnalysisServiceImpl.AnalyzeRepository env w repoID analysisType
      = .returned (AnalyzeRun.mk none (some (.wrapf "AI analysis failed: " e))
          ((w.emit (.repoGetByID repoID)).emit (.aiAnalyzeRepository (buildPrompt repo)))) := by
  have h : RepositoryStore.GetByID (w.emit (.repoGetByID repoID)).repositories
      env.getRepoFault repoID = (some repo, none) := hrepo
  simp only [AIAnalysisServiceImpl.AnalyzeRepository, h, hai]

theorem analyze_create_failed_run (env : AnalyzeEnv) (w : World) (repoID : Int)
    (analysisType : AnalysisType) (repo : Repository) (response : RepositoryAnalysisResponse)
    (cause : GoError)
    (hrepo : RepositoryStore.GetByID w.repositories env.getRepoFault repoID = (some repo, none))
    (hai : env.aiAnalyzeRepository (buildPrompt repo) = (some response, none))
    (hfault : env.analysisFault = some cause) :
    AIAnalysisServiceImpl.AnalyzeRepository env w repoID analysisType
      = .returned (AnalyzeRun.mk none
          (some (.wrapf "failed to save analysis: "
            (.wrapf "failed to create analysis: " cause)))
          (((w.emit (.repoGetByID repoID)).emit
              (.aiAnalyzeRepository (buildPrompt repo))).emit
            (.analysisCreate
              { (response.ToDomain repoID env.clock).1 with AnalysisType := analysisType }
              (some (.wrapf "failed to create analysis: " cause))))) := by
  have h : RepositoryStore.GetByID (w.emit (.repoGetByID repoID)).repositories
      env.getRepoFault repoID = (some repo, none) := hrepo
  simp only [AIAnalysisServiceImpl.AnalyzeRepository, h, hai, AnalysisRepository.Create,
    hfault]

/-- `AnalyzeRepository` returns whenever the AI gateway keeps its contract of answering
with a response or an error. -/
theorem analyze_returns (env : AnalyzeEnv) (w : World) (repoID : Int)
    (analysisType : AnalysisType)
    (hgateway : ∀ repo : Repository,
      RepositoryStore.GetByID w.repositories env.getRepoFault repoID = (some repo, none) →
      env.aiAnalyzeRepository (buildPrompt repo) ≠ (none, none)) :
    ∃ run : AnalyzeRun,
      AIAnalysisServiceImpl.AnalyzeRepository env w repoID analysisType = .returned run := by
  rcases hg : RepositoryStore.GetByID w.repositories env.getRepoFault repoID with
    ⟨_ | repo, _ | e⟩
  · exact ⟨_, analyze_lookup_none_run env w repoID analysisType hg⟩
  · exact ⟨_, analyze_lookup_error_run env w repoID analysisType _ e hg⟩
  · rcases ha : env.aiAnalyzeRepository (buildPrompt repo) with ⟨_ | response, _ | e⟩
    · exact absurd ha (hgateway repo hg)
    · exact ⟨_, analyze_ai_error_run env w repoID analysisType repo _ e hg ha⟩
    · cases hf : env.analysisFault with
      | none =>
        obtain ⟨run, -, -, hrun, -⟩ :=
          analyze_created_run env w repoID analysisType repo response hg ha hf
        exact ⟨run, hrun⟩
      | some cause =>
        exact ⟨_, analyze_create_failed_run env w repoID analysisType repo response cause
          hg ha hf⟩
    · exact ⟨_, analyze_ai_error_run env w repoID analysisType repo _ e hg ha⟩
  · exact ⟨_, analyze_lookup_error_run env w repoID analysisType _ e hg⟩

/-- C14 (amended). Steps 6-7 are soft and step 5 is hard.  Once the repository is found
and the AI gateway call has succeeded: if the Analysis row is persisted the call returns
the Analysis with a nil error, whatever the Features, Technologies and Suggestion
inserts return; if persisting the Analysis row fails the call returns no Analysis and an
error.  And whenever the gateway answers with a response or an error, the call returns,
with a nil error exactly when the repository was found, the AI call succeeded and the
Analysis row was persisted. -/
theorem analyze_error_iff_hard_step (env : AnalyzeEnv) (w : World) (repoID : Int)
    (analysisType : AnalysisType) :
    (∀ (repo : Repository) (response : RepositoryAnalysisResponse),
      RepositoryStore.GetByID w.repositories env.getRepoFault repoID = (some repo, none) →
      env.aiAnalyzeRepository (buildPrompt repo) = (some response, none) →
      env.analysisFault = none →
      ∃ run : AnalyzeRun,
        AIAnalysisServiceImpl.AnalyzeRepository env w repoID analysisType = .returned run ∧
        run.err = none ∧ run.analysis ≠ none) ∧
    (∀ (repo : Repository) (response : RepositoryAnalysisResponse) (cause : GoError),
      RepositoryStore.GetByID w.repositories env.getRepoFault repoID = (some repo, none) →
      env.aiAnalyzeRepository (buildPrompt repo) = (some response, none) →
      env.analysisFault = some cause →
      ∃ run : AnalyzeRun,
        AIAnalysisServiceImpl.AnalyzeRepository env w repoID analysisType = .returned run ∧
        run.analysis = none ∧ run.err ≠ none) ∧
    ((∀ repo : Repository,
        RepositoryStore.GetByID w.repositories env.getRepoFault repoID = (some repo, none) →
        env.aiAnalyzeRepository (buildPrompt repo) ≠ (none, none)) →
      ∃ run : AnalyzeRun,
        AIAnalysisServiceImpl.AnalyzeRepository env w repoID analysisType = .returned run ∧
        (run.err = none ↔
          ∃ (repo : Repository) (response : RepositoryAnalysisResponse),
            RepositoryStore.GetByID w.repositories env.getRepoFault repoID
              = (some repo, none) ∧
            env.aiAnalyzeRepository (buildPrompt repo) = (some response, none) ∧
            env.analysisFault = none) ∧
        (run.err = none → run.analysis ≠ none)) := by
  refine ⟨?_, ?_, ?_⟩
  · intro repo response hrepo hai hanalysis
    obtain ⟨run, -, -, hrun, herr, hret, -⟩ :=
      analyze_created_run env w repoID analysisType repo response hrepo hai hanalysis
    exact ⟨run, hrun, herr, by rw [hret]; simp⟩
  · intro repo response cause hrepo hai hfault
    exact ⟨_, analyze_create_failed_run env w repoID analysisType repo response cause
      hrepo hai hfault, rfl, by simp⟩
  · intro hgateway
    obtain ⟨run, hrun⟩ := analyze_returns env w repoID analysisType hgateway
    exact ⟨run, hrun, analyze_error_iff_of_returned env w repoID analysisType run hrun⟩

theorem analyze_error_iff_hard_step_witness :
    (∃ run : AnalyzeRun,
      AIAnalysisServiceImpl.AnalyzeRepository exampleDegradedEnv exampleWorld 1
        AnalysisTypeArchitecture = .returned run ∧
      run.err = none ∧ run.analysis ≠ none) ∧
    (∃ run : AnalyzeRun,
      AIAnalysisServiceImpl.AnalyzeRepository exampleAnalysisStoreDownEnv exampleWorld 1
        AnalysisTypeArchitecture = .returned run ∧
      run.analysis = none ∧ run.err ≠ none) ∧
    (∃ run : AnalyzeRun,
      AIAnalysisServiceImpl.AnalyzeRepository exampleAIDownEnv exampleWorld 1
        AnalysisTypeArchitecture = .returned run ∧
      ¬ run.err = none) := by
  refine ⟨?_, ?_, ?_⟩
  · exact (analyze_error_iff_hard_step exampleDegradedEnv exampleWorld 1
      AnalysisTypeArchitecture).1 (insertedRow 1 10 exampleRepoV1) exampleSuggestionResponse
      rfl rfl rfl
  · exact (analyze_error_iff_hard_step exampleAnalysisStoreDownEnv exampleWorld 1
      AnalysisTypeArchitecture).2.1 (insertedRow 1 10 exampleRepoV1) exampleResponse
      (.new "db down") rfl rfl rfl
  · obtain ⟨run, hrun, hiff, -⟩ :=
      (analyze_error_iff_hard_step exampleAIDownEnv exampleWorld 1
        AnalysisTypeArchitecture).2.2 (by
          intro repo _ h
          have h2 := congrArg Prod.snd h
          cases h2)
    refine ⟨run, hrun, ?_⟩
    intro hok
    obtain ⟨repo, response, hrepo, hai, -⟩ := hiff.1 hok
    have h2 := congrArg Prod.snd hai
    cases h2

theorem analysis_completedAt_counterexample :
    ∃ (run : AnalyzeRun) (handed : Analysis),
      AIAnalysisServiceImpl.AnalyzeRepository exampleAnalyzeEnv exampleWorld 1
        AnalysisTypeArchitecture = .returned run ∧
      run.err = none ∧
      analysisCreates run.world.trace = [(handed, none)] ∧
      handed.CompletedAt.Valid = false ∧
      run.world.analyses.rows.map (fun row => row.CompletedAt.Valid) = [false] :=
  ⟨_, _, rfl, rfl, rfl, rfl, rfl⟩

/-- C18 (amended). In every successful run the Analysis handed to the analysis store has
status completed and a creation time, the reading of `time.Now()` taken by `ToDomain`,
and the row persisted has status completed and the store's `NOW()` as creation time;
the completion time of both is absent (`CompletedAt` is never set). -/
theorem analyze_persists_completed_status (env : AnalyzeEnv) (w : World) (repoID : Int)
    (analysisType : AnalysisType) (run : AnalyzeRun)
    (hrun : AIAnalysisServiceImpl.AnalyzeRepository env w repoID analysisType = .returned run)
    (hok : run.err = none) :
    ∃ handed row : Analysis,
      analysisCreates run.world.trace = analysisCreates w.trace ++ [(handed, none)] ∧
      handed.Status = AnalysisStatusCompleted ∧ handed.CreatedAt = env.clock 0 ∧
      handed.CompletedAt = { Time := 0, Valid := false } ∧
      run.world.analyses.rows = w.analyses.rows ++ [row] ∧
      row.Status = AnalysisStatusCompleted ∧ row.CreatedAt = env.analysisNow ∧
      row.CompletedAt = { Time := 0, Valid := false } := by
  obtain ⟨repo, response, hrepo, hai, hanalysis⟩ :=
    analyze_ok_cases env w repoID analysisType run hrun hok
  obtain ⟨run2, evs, errs, hrun2, -, -, hrows, htrace, hcreates, -⟩ :=
    analyze_created_run env w repoID analysisType repo response hrepo hai hanalysis
  have heq : run = run2 := by
    rw [hrun] at hrun2
    exact GoResult.returned.inj hrun2
  subst heq
  refine ⟨{ (response.ToDomain repoID env.clock).1 with AnalysisType := analysisType },
    _, ?_, rfl, rfl, rfl, hrows, rfl, rfl, rfl⟩
  rw [htrace, analysisCreates_append, analysisCreates_append, hcreates]
  simp [analysisCreates]

theorem analyze_persists_completed_status_witness :
    ∃ (run : AnalyzeRun) (row : Analysis),
      AIAnalysisServiceImpl.AnalyzeRepository exampleAnalyzeEnv exampleWorld 1
        AnalysisTypeArchitecture = .returned run ∧
      run.world.analyses.rows = [row] ∧
      row.Status = AnalysisStatusCompleted ∧ row.CreatedAt = 400 := by
  obtain ⟨-, row, -, -, -, -, hrows, hstatus, hcreated, -⟩ :=
    analyze_persists_completed_status exampleAnalyzeEnv exampleWorld 1
      AnalysisTypeArchitecture
      (match AIAnalysisServiceImpl.AnalyzeRepository exampleAnalyzeEnv exampleWorld 1
          AnalysisTypeArchitecture with
        | .returned run => run
        | .panic _ => AnalyzeRun.mk none none {})
      rfl rfl
  exact ⟨_, row, rfl, hrows, hstatus, hcreated⟩

/-- C19. User upsert merge law, first assignment wins for the role: when the table holds
a user with the payload's open id and the stored role is a (non-null) value `p`, then
after `UserRepository.Upsert`, whatever role the payload carries and whether the
statement succeeds or fails, a user with that open id is still stored, its role is
still `p`, and no row was added for the open id. -/
theorem user_upsert_keeps_role (tbl : Table UserRow) (fault : Option GoError)
    (goNow now : Instant) (user : User) (p : GoString)
    (hstored : ∃ row ∈ tbl.rows, row.openId = user.OpenID)
    (hrole : ∀ row ∈ tbl.rows, row.openId = user.OpenID →
      row.role = { String := p, Valid := true }) :
    (∃ row ∈ (UserRepository.Upsert tbl fault goNow now user).1.rows,
      row.openId = user.OpenID) ∧
    (∀ row ∈ (UserRepository.Upsert tbl fault goNow now user).1.rows,
      row.openId = user.OpenID → row.role = { String := p, Valid := true }) ∧
    (UserRepository.Upsert tbl fault goNow now user).1.rows.map (fun row => row.openId)
      = tbl.rows.map (fun row => row.openId) := by
  cases fault with
  | some e => exact ⟨hstored, hrole, rfl⟩
  | none =>
    obtain ⟨stored, hmem, hid⟩ := hstored
    cases hf : tbl.rows.find? (fun r => r.openId == user.OpenID) with
    | none =>
      have := List.find?_eq_none.1 hf stored hmem
      simp [hid] at this
    | some existing =>
      simp only [UserRepository.Upsert, hf]
      refine ⟨?_, ?_, ?_⟩
      · refine ⟨_, List.mem_map.2 ⟨stored, hmem, rfl⟩, ?_⟩
        simp [hid, onConflictUpdate]
      · intro row hrow hopen
        obtain ⟨r, hr, rfl⟩ := List.mem_map.1 hrow
        by_cases hc : r.openId = user.OpenID
        · rw [if_pos hc]
          have hv := hrole r hr hc
          simp [onConflictUpdate, hv]
        · simp only [hc, if_false] at hopen
      · rw [List.map_map]
        apply List.map_congr_left
        intro r _
        by_cases hc : r.openId = user.OpenID <;> simp [hc, onConflictUpdate]

theorem user_upsert_keeps_role_witness :
    (UserRepository.Upsert exampleUsers none 50 60
        { OpenID := "open-123", Role := UserRoleUser }).1.rows.map
      (fun row => (row.openId, row.role.String, row.lastSignedIn))
      = [("open-123", "admin", 50)] ∧
    ∀ row ∈ (UserRepository.Upsert exampleUsers none 50 60
        { OpenID := "open-123", Role := UserRoleUser }).1.rows,
      row.openId = "open-123" → row.role = { String := "admin", Valid := true } :=
  ⟨by decide,
    (user_upsert_keeps_role exampleUsers none 50 60
      { OpenID := "open-123", Role := UserRoleUser } "admin"
      ⟨_, List.mem_singleton.2 rfl, rfl⟩ (by decide)).2.1⟩

/-- C20. `UnificationRepository.Update` has no whitelist: for every string `k`, the
statement built for the one-entry map with key `k` names `k` as a column of its SET
clause and binds the entry's value; for the key `x" = 1 --` the statement is the one
shown. -/
theorem unification_update_passes_any_key :
    (∀ (operationID k : GoString) (v : GoAny),
      ∃ call : ExecCall,
        UnificationRepository.Update none operationID [(k, v)] = (some call, none) ∧
        call.args = [v, .uuid operationID] ∧
        ∃ rest : GoString,
          call.query = "UPDATE \"unificationOperations\" SET " ++ ("\"" ++ k ++ "\" = $1, ") ++ rest) ∧
    UnificationRepository.Update none "op-1" [("x\" = 1 --", .int 7)]
      = (some
          { query := "UPDATE \"unificationOperations\" SET \"x\" = 1 --\" = $1, \"updatedAt\" = NOW() WHERE \"operationId\" = $2"
            args := [.int 7, .uuid "op-1"] }, none) := by
  constructor
  · intro operationID k v
    refine ⟨_, rfl, rfl, "\"updatedAt\" = NOW() WHERE \"operationId\" = $2", ?_⟩
    have h : ("\" = $" ++ toString (1 : Nat) ++ ", " : GoString) = "\" = $1, " := by decide
    have h2 : toString (1 + 1 : Nat) = "2" := by decide
    show "UPDATE \"unificationOperations\" SET " ++
        ("\"" ++ k ++ "\" = $" ++ toString (1 : Nat) ++ ", ") ++
        ("\"updatedAt\" = NOW() WHERE \"operationId\" = $" ++ toString (1 + 1 : Nat)) = _
    rw [h2, ← h]
    simp [String.append_assoc]
  · rfl

/-- C23. `GenerateSuggestions` is a read-only accessor: it returns exactly the list and
the error of the suggestion store's `GetByRepositoryID` for the id, makes no AI gateway
call, attempts no store write and leaves every table as it was. -/
theorem generate_suggestions_read_only (fault : Option GoError) (w : World) (repoID : Int) :
    ((AIAnalysisServiceImpl.GenerateSuggestions fault w repoID).suggestions,
      (AIAnalysisServiceImpl.GenerateSuggestions fault w repoID).err)
      = SuggestionRepository.GetByRepositoryID w.suggestions fault repoID ∧
    (AIAnalysisServiceImpl.GenerateSuggestions fault w repoID).world.trace
      = w.trace ++ [.suggestionGetByRepositoryID repoID] ∧
    aiCalls (AIAnalysisServiceImpl.GenerateSuggestions fault w repoID).world.trace
      = aiCalls w.trace ∧
    upsertAttempts (AIAnalysisServiceImpl.GenerateSuggestions fault w repoID).world.trace
      = upsertAttempts w.trace ∧
    analysisCreates (AIAnalysisServiceImpl.GenerateSuggestions fault w repoID).world.trace
      = analysisCreates w.trace ∧
    featureBulkCreates (AIAnalysisServiceImpl.GenerateSuggestions fault w repoID).world.trace
      = featureBulkCreates w.trace ∧
    technologyBulkCreates (AIAnalysisServiceImpl.GenerateSuggestions fault w repoID).world.trace
      = technologyBulkCreates w.trace ∧
    suggestionCreates (AIAnalysisServiceImpl.GenerateSuggestions fault w repoID).world.trace
      = suggestionCreates w.trace ∧
    (AIAnalysisServiceImpl.GenerateSuggestions fault w repoID).world.repositories
      = w.repositories ∧
    (AIAnalysisServiceImpl.GenerateSuggestions fault w repoID).world.analyses = w.analyses ∧
    (AIAnalysisServiceImpl.GenerateSuggestions fault w repoID).world.features = w.features ∧
    (AIAnalysisServiceImpl.GenerateSuggestions fault w repoID).world.technologies
      = w.technologies ∧
    (AIAnalysisServiceImpl.GenerateSuggestions fault w repoID).world.suggestions
      = w.suggestions := by
  refine ⟨rfl, rfl, ?_, ?_, ?_, ?_, ?_, ?_, rfl, rfl, rfl, rfl, rfl⟩
  · simp [AIAnalysisServiceImpl.GenerateSuggestions, World.emit, aiCalls]
  · simp [AIAnalysisServiceImpl.GenerateSuggestions, World.emit, upsertAttempts]
  · simp [AIAnalysisServiceImpl.GenerateSuggestions, World.emit, analysisCreates]
  · simp [AIAnalysisServiceImpl.GenerateSuggestions, World.emit, featureBulkCreates]
  · simp [AIAnalysisServiceImpl.GenerateSuggestions, World.emit, technologyBulkCreates]
  · simp [AIAnalysisServiceImpl.GenerateSuggestions, World.emit, suggestionCreates]

/-- C24. `Config.Validate` rejects exactly the invalid configurations: it returns an
error if and only if `Port` is empty, or `DatabaseURL` is empty, or `ServerTimeout` is
not positive, or `MaxRequestSize` is not positive, and nil otherwise. -/
theorem config_validate_rejects_exactly (c : Config) :
    (c.Validate ≠ none ↔
      (c.Port = "" ∨ c.DatabaseURL = "" ∨ c.ServerTimeout ≤ 0 ∨ c.MaxRequestSize ≤ 0)) ∧
    (c.Validate = none ↔
      (c.Port ≠ "" ∧ c.DatabaseURL ≠ "" ∧ 0 < c.ServerTimeout ∧ 0 < c.MaxRequestSize)) := by
  unfold Config.Validate
  by_cases h1 : c.Port = "" <;> by_cases h2 : c.DatabaseURL = "" <;>
    by_cases h3 : c.ServerTimeout ≤ 0 <;> by_cases h4 : c.MaxRequestSize ≤ 0 <;>
    simp [h1, h2, h3, h4]
  all_goals omega

/-- C22. The fences are cut only when the text begins and ends with them: a newline after
the closing fence, or before the opening one, leaves a fence in the text handed to the
JSON decoder, while the exactly fenced text is stripped to its body. -/
theorem gemini_fence_with_whitespace_kept :
    decoderInput [.Text "```json\n{}\n```\n"] = "\n{}\n```\n" ∧
    decoderInput [.Text "\n```json\n{}\n```"] = "\n```json\n{}\n" ∧
    decoderInput [.Text "```json\n{}\n```"] = "\n{}\n" := by
  decide

/-- C25. For a repository id with no row the store returns `(nil, nil)` and
`AnalyzeDependencies` dereferences the nil record: it panics instead of returning. -/
theorem analyze_dependencies_missing_repo_panics :
    RepositoryStore.GetByID exampleWorld.repositories none 99 = (none, none) ∧
    GitHubServiceImpl.AnalyzeDependencies none exampleWorld 99
      = .panic "invalid memory address or nil pointer dereference" ∧
    ∃ run : SyncRun,
      GitHubServiceImpl.AnalyzeDependencies none exampleWorld 1 = .returned run ∧
      run.err = none :=
  ⟨rfl, rfl, _, rfl, rfl⟩

/-- C28. For a user id with no row `UserRepository.GetByID` returns `(nil, nil)` and
`SyncUserRepositories` dereferences the nil user: it panics instead of returning an
error. -/
theorem sync_missing_user_panics :
    UserRepository.GetByID exampleUsers none 99 = (none, none) ∧
    GitHubServiceImpl.SyncUserRepositories exampleUsersEnv {} 99 ""
      = .panic "invalid memory address or nil pointer dereference" :=
  ⟨rfl, rfl⟩

/-- C29. For the one-entry map with the key `foo`, which is not whitelisted,
`AnalysisRepository.Update` executes a statement without SET clause: the cut meant for the
trailing comma removes the end of `SET `. -/
theorem analysis_update_malformed_statement :
    AnalysisRepository.Update none 5 [("foo", .int 1)]
      = (some { query := "UPDATE analyses SE WHERE id = $1", args := [.int 5] }, none) := by
  decide

theorem stamped_zip_forall₂ (env : SyncEnv) (userID : Int) (repos : List Repository) :
    ∀ (i : Nat) (errs : List (Option GoError)), errs.length = repos.length →
      List.Forall₂
        (fun (call : Repository × Option GoError) (repo : Repository) =>
          call.1.UserID = userID ∧ call.1.LastSyncAt.Valid = true ∧
          { call.1 with UserID := repo.UserID, LastSyncAt := repo.LastSyncAt } = repo)
        ((stampedFrom env userID i repos).zip errs) repos := by
  induction repos with
  | nil => intro i errs _; exact List.Forall₂.nil
  | cons repo rest ih =>
    intro i errs hlen
    cases errs with
    | nil => simp at hlen
    | cons e errs =>
      exact List.Forall₂.cons ⟨rfl, rfl, rfl⟩ (ih (i + 1) errs (by simpa using hlen))

/-- C26. For a linked user with id `u` and the list the gateway returns, the records
handed to `RepositoryStore.Upsert` are, one per fetched repository and in order, the
fetched record with `UserID = u` and a valid `LastSyncAt`, every other field unchanged. -/
theorem sync_stamps_fetched_records (env : SyncEnv) (w : World) (userID : Int)
    (openID : GoString) (user : User) (repos : List Repository)
    (huser : env.userGetByID userID = (some user, none))
    (hlinked : user.GithubUsername.Valid = true)
    (hlist : env.ghGetUserRepositories user.GithubUsername.String = (repos, none)) :
    ∃ (run : SyncRun) (calls : List (Repository × Option GoError)),
      GitHubServiceImpl.SyncUserRepositories env w userID openID = .returned run ∧
      upsertAttempts run.world.trace = upsertAttempts w.trace ++ calls ∧
      List.Forall₂
        (fun (call : Repository × Option GoError) (repo : Repository) =>
          call.1.UserID = userID ∧ call.1.LastSyncAt.Valid = true ∧
          { call.1 with UserID := repo.UserID, LastSyncAt := repo.LastSyncAt } = repo)
        calls repos := by
  obtain ⟨errs, hlen, htrace, -, -⟩ := syncLoop_spec env userID repos 0
    ((w.emit (.userGetByID userID)).emit (.ghGetUserRepositories user.GithubUsername.String))
  refine ⟨SyncRun.mk none (syncLoop env userID 0 repos
      ((w.emit (.userGetByID userID)).emit
        (.ghGetUserRepositories user.GithubUsername.String))),
    (stampedFrom env userID 0 repos).zip errs, ?_, ?_,
    stamped_zip_forall₂ env userID repos 0 errs hlen⟩
  · simp [GitHubServiceImpl.SyncUserRepositories, huser, hlinked, hlist]
  · rw [htrace]
    simp [World.emit, upsertAttempts_append, upsertAttempts]

theorem sync_stamps_fetched_records_witness :
    (∃ run : SyncRun,
      GitHubServiceImpl.SyncUserRepositories exampleSyncEnv {} 1 "test-openid"
        = .returned run) ∧
    (match GitHubServiceImpl.SyncUserRepositories exampleSyncEnv {} 1 "test-openid" with
      | .returned run =>
        (upsertAttempts run.world.trace).map
          (fun call => (call.1.UserID, call.1.Name, call.1.GithubID, call.1.LastSyncAt))
      | .panic _ => [])
      = [(1, "repo1", "101", { Time := 100, Valid := true }),
         (1, "repo2", "102", { Time := 101, Valid := true }),
         (1, "repo3", "103", { Time := 102, Valid := true })] := by
  constructor
  · obtain ⟨run, -, hrun, -⟩ :=
      sync_stamps_fetched_records exampleSyncEnv {} 1 "test-openid" exampleUser
        [{ Name := "repo1", GithubID := "101" }, { Name := "repo2", GithubID := "102" },
          { Name := "repo3", GithubID := "103" }] rfl rfl rfl
    exact ⟨run, hrun⟩
  · rfl

theorem rows_eq_of_same_id (rows : List Repository)
    (hkey : (rows.map (fun row => row.ID)).Nodup) (x y : Repository)
    (hx : x ∈ rows) (hy : y ∈ rows) (hid : x.ID = y.ID) : x = y :=
  List.inj_on_of_nodup_map hkey hx hy hid

/-- C30. `Upsert` changes only the row it targets: when the ids of the table are distinct
(`id` is its primary key), after a successful `Upsert` the rows whose
`(UserID, GithubID)` differs from the record's are the same rows as before, and a row
that matched the record has kept its id, user id, external id and creation time. -/
theorem upsert_changes_only_target (db : Table Repository) (faults : TxFaults)
    (now : Instant) (repo : Repository)
    (hkey : (db.rows.map (fun row => row.ID)).Nodup)
    (hok : (RepositoryStore.Upsert db faults now repo).err = none) :
    (RepositoryStore.Upsert db faults now repo).db.rows.filter
        (fun row => !samePair repo row)
      = db.rows.filter (fun row => !samePair repo row) ∧
    ∀ matched ∈ db.rows, samePair repo matched = true →
      ∃ kept ∈ (RepositoryStore.Upsert db faults now repo).db.rows,
        kept.ID = matched.ID ∧ kept.UserID = matched.UserID ∧
        kept.GithubID = matched.GithubID ∧ kept.CreatedAt = matched.CreatedAt := by
  cases hf : db.rows.find? (samePair repo) with
  | none =>
    obtain ⟨hrows, -, -⟩ := Upsert_ok_insert db faults now repo hf hok
    constructor
    · rw [hrows, List.filter_append]
      simp [List.filter_cons, samePair_insertedRow]
    · intro matched hmem hsame
      exact absurd hsame (List.find?_eq_none.1 hf matched hmem)
  | some first =>
    obtain ⟨hrows, -, -⟩ := Upsert_ok_update db faults now repo first hf hok
    have hfirst : first ∈ db.rows := List.mem_of_find?_eq_some hf
    have hfsame : samePair repo first = true := List.find?_some hf
    constructor
    · rw [hrows, List.filter_map]
      have hcomp : ((fun row => !samePair repo row) ∘ updatedRow first.ID now repo)
          = fun row => !samePair repo row := by
        funext x
        simp [samePair_updatedRow]
      rw [hcomp]
      have hid : ∀ x ∈ db.rows.filter (fun row => !samePair repo row),
          updatedRow first.ID now repo x = x := by
        intro x hx
        obtain ⟨hxmem, hxp⟩ := List.mem_filter.1 hx
        unfold updatedRow
        split
        · rename_i hxid
          have := rows_eq_of_same_id db.rows hkey x first hxmem hfirst hxid
          subst this
          simp [hfsame] at hxp
        · rfl
      conv_rhs => rw [← List.map_id (db.rows.filter (fun row => !samePair repo row))]
      exact List.map_congr_left hid
    · intro matched hmem _
      refine ⟨updatedRow first.ID now repo matched, ?_, ?_⟩
      · rw [hrows]
        exact List.mem_map_of_mem _ hmem
      · unfold updatedRow
        split <;> exact ⟨rfl, rfl, rfl, rfl⟩

theorem upsert_changes_only_target_witness :
    (RepositoryStore.Upsert
        { rows := [insertedRow 1 10 exampleRepoV1,
            insertedRow 2 11 { exampleRepoV1 with GithubID := "202", Name := "other" }],
          nextID := 3 } {} 20 exampleRepoV2).db.rows.map
      (fun row => (row.ID, row.GithubID, row.Name, row.CreatedAt, row.UpdatedAt))
      = [(1, "101", "renamed", 10, 20), (2, "202", "other", 11, 11)] ∧
    (RepositoryStore.Upsert
        { rows := [insertedRow 1 10 exampleRepoV1,
            insertedRow 2 11 { exampleRepoV1 with GithubID := "202", Name := "other" }],
          nextID := 3 } {} 20 exampleRepoV2).db.rows.filter
        (fun row => !samePair exampleRepoV2 row)
      = [insertedRow 2 11 { exampleRepoV1 with GithubID := "202", Name := "other" }] :=
  ⟨rfl,
    (upsert_changes_only_target
      { rows := [insertedRow 1 10 exampleRepoV1,
          insertedRow 2 11 { exampleRepoV1 with GithubID := "202", Name := "other" }],
        nextID := 3 } {} 20 exampleRepoV2 (by decide) rfl).1⟩

theorem no_write_before (new : List Event) (hnone : ∀ e ∈ new, isCollectionWrite e = false)
    (pre : List Event) (e : Event) (post : List Event) (hsplit : new = pre ++ e :: post)
    (hwrite : isCollectionWrite e = true) :
    ∃ a : Analysis, Event.analysisCreate a none ∈ pre := by
  have hmem : e ∈ new := by rw [hsplit]; simp
  rw [hnone e hmem] at hwrite
  cases hwrite

theorem write_after_created (g ai : Event) (a0 : Analysis) (evs : List Event)
    (hg : isCollectionWrite g = false) (hai : isCollectionWrite ai = false)
    (pre : List Event) (e : Event) (post : List Event)
    (hsplit : g :: ai :: Event.analysisCreate a0 none :: evs = pre ++ e :: post)
    (hwrite : isCollectionWrite e = true) :
    ∃ a : Analysis, Event.analysisCreate a none ∈ pre := by
  cases pre with
  | nil =>
    simp only [List.nil_append, List.cons.injEq] at hsplit
    rw [← hsplit.1, hg] at hwrite
    cases hwrite
  | cons p1 pre =>
    cases pre with
    | nil =>
      simp only [List.cons_append, List.nil_append, List.cons.injEq] at hsplit
      rw [← hsplit.2.1, hai] at hwrite
      cases hwrite
    | cons p2 pre =>
      cases pre with
      | nil =>
        simp only [List.cons_append, List.nil_append, List.cons.injEq] at hsplit
        rw [← hsplit.2.2.1] at hwrite
        cases hwrite
      | cons p3 pre =>
        simp only [List.cons_append, List.cons.injEq] at hsplit
        exact ⟨a0, by rw [← hsplit.2.2.1]; simp⟩

/-- In a run that returns, a Feature, Technology or Suggestion write comes only after an
Analysis `Create` that succeeded, and a failed Analysis insert ends the run with the
wrapped error and no such write. -/
theorem analyze_row_first_of_returned (env : AnalyzeEnv) (w : World) (repoID : Int)
    (analysisType : AnalysisType) (run : AnalyzeRun)
    (hrun : AIAnalysisServiceImpl.AnalyzeRepository env w repoID analysisType = .returned run) :
    ∃ new : List Event, run.world.trace = w.trace ++ new ∧
      (∀ (pre : List Event) (e : Event) (post : List Event), new = pre ++ e :: post →
        isCollectionWrite e = true → ∃ a : Analysis, Event.analysisCreate a none ∈ pre) ∧
      (∀ (repo : Repository) (response : RepositoryAnalysisResponse) (cause : GoError),
        RepositoryStore.GetByID w.repositories env.getRepoFault repoID = (some repo, none) →
        env.aiAnalyzeRepository (buildPrompt repo) = (some response, none) →
        env.analysisFault = some cause →
        run.analysis = none ∧
        run.err = some (.wrapf "failed to save analysis: "
          (.wrapf "failed to create analysis: " cause)) ∧
        (∀ e ∈ new, isCollectionWrite e = false) ∧
        run.world.features = w.features ∧ run.world.technologies = w.technologies ∧
        run.world.suggestions = w.suggestions) := by
  have hemit : (w.emit (.repoGetByID repoID)).repositories = w.repositories := rfl
  have hrun0 := hrun
  unfold AIAnalysisServiceImpl.AnalyzeRepository at hrun
  simp only [hemit] at hrun
  rcases hg : RepositoryStore.GetByID w.repositories env.getRepoFault repoID with
    ⟨_ | repo, _ | e⟩
  · simp only [hg, GoResult.returned.injEq] at hrun
    subst hrun
    refine ⟨[.repoGetByID repoID], rfl, ?_, ?_⟩
    · intro pre e post hsplit hwrite
      exact no_write_before _ (by simp [isCollectionWrite]) pre e post hsplit hwrite
    · intro repo response cause h1
      simp at h1
  · simp only [hg, GoResult.returned.injEq] at hrun
    subst hrun
    refine ⟨[.repoGetByID repoID], rfl, ?_, ?_⟩
    · intro pre e post hsplit hwrite
      exact no_write_before _ (by simp [isCollectionWrite]) pre e post hsplit hwrite
    · intro repo response cause h1
      simp at h1
  · rcases ha : env.aiAnalyzeRepository (buildPrompt repo) with ⟨_ | response, _ | e⟩
    · simp [hg, ha] at hrun
    · simp only [hg, ha, GoResult.returned.injEq] at hrun
      subst hrun
      refine ⟨[.repoGetByID repoID, .aiAnalyzeRepository (buildPrompt repo)],
        by simp [World.emit], ?_, ?_⟩
      · intro pre e post hsplit hwrite
        exact no_write_before _ (by simp [isCollectionWrite]) pre e post hsplit hwrite
      · intro repo2 response cause h1 h2
        simp only [Prod.mk.injEq, Option.some.injEq, and_true] at h1
        subst h1
        rw [ha] at h2
        simp at h2
    · cases hf : env.analysisFault with
      | none =>
        obtain ⟨run2, evs, errs, hrun2, -, -, -, htrace, -⟩ :=
          analyze_created_run env w repoID analysisType repo response hg ha hf
        have heq : run = run2 := by
          rw [hrun0] at hrun2
          exact GoResult.returned.inj hrun2
        subst heq
        refine ⟨[.repoGetByID repoID, .aiAnalyzeRepository (buildPrompt repo),
          .analysisCreate
            { (response.ToDomain repoID env.clock).1 with AnalysisType := analysisType } none]
          ++ evs, by rw [htrace, List.append_assoc], ?_, ?_⟩
        · intro pre e post hsplit hwrite
          exact write_after_created (.repoGetByID repoID)
            (.aiAnalyzeRepository (buildPrompt repo)) _ evs rfl rfl pre e post hsplit hwrite
        · intro repo2 response2 cause _ _ h3
          cases h3
      | some cause0 =>
        simp only [hg, ha, hf, AnalysisRepository.Create, GoResult.returned.injEq] at hrun
        subst hrun
        refine ⟨[.repoGetByID repoID, .aiAnalyzeRepository (buildPrompt repo),
          .analysisCreate
            { (response.ToDomain repoID env.clock).1 with AnalysisType := analysisType }
            (some (.wrapf "failed to create analysis: " cause0))],
          by simp [World.emit], ?_, ?_⟩
        · intro pre e post hsplit hwrite
          exact no_write_before _ (by simp [isCollectionWrite]) pre e post hsplit hwrite
        · intro repo2 response2 cause _ _ h3
          cases h3
          exact ⟨rfl, rfl, by simp [isCollectionWrite], rfl, rfl, rfl⟩
    · simp only [hg, ha, GoResult.returned.injEq] at hrun
      subst hrun
      refine ⟨[.repoGetByID repoID, .aiAnalyzeRepository (buildPrompt repo)],
        by simp [World.emit], ?_, ?_⟩
      · intro pre e post hsplit hwrite
        exact no_write_before _ (by simp [isCollectionWrite]) pre e post hsplit hwrite
      · intro repo2 response2 cause h1 h2
        simp only [Prod.mk.injEq, Option.some.injEq, and_true] at h1
        subst h1
        rw [ha] at h2
        simp at h2
  · simp only [hg, GoResult.returned.injEq] at hrun
    subst hrun
    refine ⟨[.repoGetByID repoID], rfl, ?_, ?_⟩
    · intro pre e post hsplit hwrite
      exact no_write_before _ (by simp [isCollectionWrite]) pre e post hsplit hwrite
    · intro repo2 response cause h1
      simp at h1

/-- C27. The Analysis row is persisted first and guards the rest.  When the repository
was found, the AI call succeeded and the Analysis insert fails with `cause`, the call
returns no Analysis and an error that wraps the store's error, itself wrapping `cause`;
it attempts no Feature, Technology or Suggestion write and leaves those three tables as
they were.  And whenever the gateway answers with a response or an error, the call
returns, and in its trace a Feature, Technology or Suggestion write is attempted only
after an Analysis `Create` that succeeded. -/
theorem analyze_analysis_row_first (env : AnalyzeEnv) (w : World) (repoID : Int)
    (analysisType : AnalysisType) :
    (∀ (repo : Repository) (response : RepositoryAnalysisResponse) (cause : GoError),
      RepositoryStore.GetByID w.repositories env.getRepoFault repoID = (some repo, none) →
      env.aiAnalyzeRepository (buildPrompt repo) = (some response, none) →
      env.analysisFault = some cause →
      ∃ (run : AnalyzeRun) (new : List Event) (stored : GoError),
        AIAnalysisServiceImpl.AnalyzeRepository env w repoID analysisType = .returned run ∧
        run.analysis = none ∧
        run.err = some (.wrapf "failed to save analysis: " stored) ∧
        stored = .wrapf "failed to create analysis: " cause ∧
        run.world.trace = w.trace ++ new ∧
        (∀ e ∈ new, isCollectionWrite e = false) ∧
        run.world.features = w.features ∧ run.world.technologies = w.technologies ∧
        run.world.suggestions = w.suggestions) ∧
    ((∀ repo : Repository,
        RepositoryStore.GetByID w.repositories env.getRepoFault repoID = (some repo, none) →
        env.aiAnalyzeRepository (buildPrompt repo) ≠ (none, none)) →
      ∃ (run : AnalyzeRun) (new : List Event),
        AIAnalysisServiceImpl.AnalyzeRepository env w repoID analysisType = .returned run ∧
        run.world.trace = w.trace ++ new ∧
        ∀ (pre : List Event) (e : Event) (post : List Event), new = pre ++ e :: post →
          isCollectionWrite e = true →
          ∃ a : Analysis, Event.analysisCreate a none ∈ pre) := by
  constructor
  · intro repo response cause hrepo hai hfault
    refine ⟨_, [.repoGetByID repoID, .aiAnalyzeRepository (buildPrompt repo),
        .analysisCreate
          { (response.ToDomain repoID env.clock).1 with AnalysisType := analysisType }
          (some (.wrapf "failed to create analysis: " cause))], _,
      analyze_create_failed_run env w repoID analysisType repo response cause hrepo hai hfault,
      rfl, rfl, rfl, ?_, ?_, rfl, rfl, rfl⟩
    · simp [World.emit]
    · simp [isCollectionWrite]
  · intro hgateway
    obtain ⟨run, hrun⟩ := analyze_returns env w repoID analysisType hgateway
    obtain ⟨new, htrace, horder, -⟩ :=
      analyze_row_first_of_returned env w repoID analysisType run hrun
    exact ⟨run, new, hrun, htrace, horder⟩

theorem analyze_analysis_row_first_witness :
    (∃ run : AnalyzeRun,
      AIAnalysisServiceImpl.AnalyzeRepository exampleAnalysisStoreDownEnv exampleWorld 1
        AnalysisTypeArchitecture = .returned run ∧
      run.err = some (.wrapf "failed to save analysis: "
        (.wrapf "failed to create analysis: " (.new "db down"))) ∧
      run.world.features = exampleWorld.features ∧
      run.world.suggestions = exampleWorld.suggestions) ∧
    (∃ (run : AnalyzeRun) (new : List Event),
      AIAnalysisServiceImpl.AnalyzeRepository exampleDegradedEnv exampleWorld 1
        AnalysisTypeArchitecture = .returned run ∧
      run.world.trace = exampleWorld.trace ++ new) := by
  constructor
  · obtain ⟨run, new, stored, hrun, -, herr, hstored, -, -, hfeat, -, hsugg⟩ :=
      (analyze_analysis_row_first exampleAnalysisStoreDownEnv exampleWorld 1
        AnalysisTypeArchitecture).1 (insertedRow 1 10 exampleRepoV1) exampleResponse
        (.new "db down") rfl rfl rfl
    subst hstored
    exact ⟨run, hrun, herr, hfeat, hsugg⟩
  · obtain ⟨run, new, hrun, htrace, -⟩ :=
      (analyze_analysis_row_first exampleDegradedEnv exampleWorld 1
        AnalysisTypeArchitecture).2 (by
          intro repo _ h
          have h2 := congrArg Prod.fst h
          cases h2)
    exact ⟨run, new, hrun, htrace⟩

theorem analysisSetLoop_filter (entries : List (GoString × GoAny)) :
    ∀ (query : GoString) (args : List GoAny) (i : Nat),
      analysisSetLoop entries query args i
        = analysisSetLoop (entries.filter (fun e => analysisUpdateWhitelisted e.1))
            query args i := by
  induction entries with
  | nil => intro query args i; rfl
  | cons e rest ih =>
    intro query args i
    obtain ⟨k, v⟩ := e
    by_cases hk : analysisUpdateWhitelisted k = true
    · simp only [List.filter_cons, hk, if_true, analysisSetLoop]
      exact ih _ _ _
    · simp only [List.filter_cons, hk, analysisSetLoop]
      exact ih _ _ _

theorem analysisSetLoop_kept (kept : List (GoString × GoAny))
    (hall : ∀ e ∈ kept, analysisUpdateWhitelisted e.1 = true) :
    ∀ (query : GoString) (args : List GoAny) (i : Nat),
      (analysisSetLoop kept query args i).2.1 = args ++ kept.map Prod.snd ∧
      (analysisSetLoop kept query args i).2.2 = i + kept.length ∧
      (kept ≠ [] →
        (analysisSetLoop kept query args i).1 = query ++ setClause i kept ++ ", ") := by
  induction kept with
  | nil => intro query args i; simp [analysisSetLoop]
  | cons e rest ih =>
    intro query args i
    obtain ⟨k, v⟩ := e
    have hk : analysisUpdateWhitelisted k = true := hall (k, v) (List.mem_cons_self _ _)
    have hrest : ∀ e ∈ rest, analysisUpdateWhitelisted e.1 = true :=
      fun e he => hall e (List.mem_cons_of_mem _ he)
    obtain ⟨h1, h2, h3⟩ := ih hrest
      (query ++ ("\"" ++ k ++ "\" = $" ++ toString i ++ ", ")) (args ++ [v]) (i + 1)
    simp only [analysisSetLoop, hk, if_true]
    refine ⟨?_, ?_, ?_⟩
    · rw [h1]; simp
    · rw [h2]; simp; omega
    · intro _
      cases rest with
      | nil => simp [analysisSetLoop, setClause, assignment, String.append_assoc]
      | cons e2 rest2 =>
        rw [h3 (by simp)]
        simp [setClause, assignment, String.append_assoc]

theorem dropLastTwo_append_comma (s : GoString) : dropLastTwo (s ++ ", ") = s := by
  unfold dropLastTwo
  have hdata : (s ++ ", ").data = s.data ++ [',', ' '] := by
    rw [String.data_append]
  rw [hdata]
  simp

/-- C21. Analysis partial updates are whitelisted.  An empty map executes nothing.  For a
non-empty map, the keys outside {status, result, summary, score, errorMessage,
completedAt} never contribute to the statement (the loop does what it does on the
whitelisted entries alone), the bound arguments are the whitelisted entries' values in
iteration order followed by the id, and, when some key is whitelisted, the statement is
`UPDATE analyses SET`, the whitelisted keys each once with the placeholders `$1..$k`, and
`WHERE id = $k+1`. -/
theorem analysis_update_whitelisted (fault : Option GoError) (id : Int)
    (entries : List (GoString × GoAny)) :
    (∀ k : GoString, analysisUpdateWhitelisted k = true ↔
      k ∈ ["status", "result", "summary", "score", "errorMessage", "completedAt"]) ∧
    AnalysisRepository.Update fault id [] = (none, none) ∧
    (∀ (query : GoString) (args : List GoAny) (i : Nat),
      analysisSetLoop entries query args i
        = analysisSetLoop (entries.filter (fun e => analysisUpdateWhitelisted e.1))
            query args i) ∧
    (entries ≠ [] →
      ∃ call : ExecCall,
        AnalysisRepository.Update fault id entries = (some call, fault) ∧
        call.args = (entries.filter (fun e => analysisUpdateWhitelisted e.1)).map Prod.snd
          ++ [.int id] ∧
        (entries.filter (fun e => analysisUpdateWhitelisted e.1) ≠ [] →
          call.query = "UPDATE analyses SET " ++
            setClause 1 (entries.filter (fun e => analysisUpdateWhitelisted e.1)) ++
            " WHERE id = $" ++
            toString ((entries.filter (fun e => analysisUpdateWhitelisted e.1)).length + 1))) := by
  refine ⟨?_, rfl, analysisSetLoop_filter entries, ?_⟩
  · intro k
    simp [analysisUpdateWhitelisted, or_assoc]
  · intro hne
    have hlen : ¬ entries.length = 0 := by
      intro h
      exact hne (List.length_eq_zero.1 h)
    have hall : ∀ e ∈ entries.filter (fun e => analysisUpdateWhitelisted e.1),
        analysisUpdateWhitelisted e.1 = true := fun e he => (List.mem_filter.1 he).2
    obtain ⟨h1, h2, h3⟩ := analysisSetLoop_kept _ hall "UPDATE analyses SET " [] 1
    refine ⟨ExecCall.mk
      (dropLastTwo (analysisSetLoop entries "UPDATE analyses SET " [] 1).1 ++
        (" WHERE id = $" ++ toString (analysisSetLoop entries "UPDATE analyses SET " [] 1).2.2))
      ((analysisSetLoop entries "UPDATE analyses SET " [] 1).2.1 ++ [GoAny.int id]),
      ?_, ?_, ?_⟩
    · simp only [AnalysisRepository.Update, hlen, if_false]
    · show (analysisSetLoop entries "UPDATE analyses SET " [] 1).2.1 ++ [GoAny.int id] = _
      rw [analysisSetLoop_filter, h1]
      simp
    · intro hkept
      show dropLastTwo (analysisSetLoop entries "UPDATE analyses SET " [] 1).1 ++
          (" WHERE id = $" ++ toString (analysisSetLoop entries "UPDATE analyses SET " [] 1).2.2)
        = _
      rw [analysisSetLoop_filter, h2, h3 hkept, dropLastTwo_append_comma, Nat.add_comm 1]
      simp [String.append_assoc]

theorem analysis_update_whitelisted_witness :
    AnalysisRepository.Update none 7
        [("status", .str "failed"), ("foo", .int 1), ("errorMessage", .str "boom")]
      = (some { query := "UPDATE analyses SET \"status\" = $1, \"errorMessage\" = $2 WHERE id = $3"
                args := [.str "failed", .str "boom", .int 7] }, none) ∧
    ∃ call : ExecCall,
      AnalysisRepository.Update none 7
          [("status", .str "failed"), ("foo", .int 1), ("errorMessage", .str "boom")]
        = (some call, none) ∧
      call.args = [.str "failed", .str "boom", .int 7] := by
  refine ⟨by decide, ?_⟩
  obtain ⟨call, hcall, hargs, -⟩ :=
    (analysis_update_whitelisted none 7
      [("status", .str "failed"), ("foo", .int 1), ("errorMessage", .str "boom")]).2.2.2
      (by simp)
  exact ⟨call, hcall, hargs⟩

end Ghrego
